import Mathlib

/-!
Verification development for the Goa fire-truck GeoJSON cache scripts.

The repository consists of JavaScript scripts that fetch vehicle telemetry,
recover (latitude, longitude) pairs through a cascade of heuristics
(`extractCoordinates`), filter them through a bounding-box validator
(`isValidGoaCoordinate`), write a snapshot FeatureCollection, and accumulate
per-vehicle daily LineString tracks (`updateDailyGpxTracks`).

This file shallowly embeds those functions.  JavaScript numbers are modelled
as `Option ℚ` (with `none` standing for `NaN`); JavaScript's `parseFloat` is
modelled by `jsParseFloat`, restricted to plain decimal notation (optional
sign, digits, optional fraction; no exponent, hex, or `Infinity` forms — the
repository's data never uses those).  JavaScript objects holding telemetry
rows are modelled as association lists in insertion order (`Row`).
-/

namespace GoaFireTrucks

/-- Whitespace characters skipped by `parseFloat` before parsing. -/
def isWsChar (c : Char) : Bool :=
  c = ' ' || c = '\t' || c = '\n' || c = '\r'

/-- Numeric value of a list of decimal digit characters (most significant first). -/
def natOfDigits (ds : List Char) : ℕ :=
  ds.foldl (fun acc c => 10 * acc + (c.toNat - '0'.toNat)) 0

theorem natOfDigits_nil : natOfDigits [] = 0 := rfl

/-- Split a character list into its leading run of decimal digits and the rest. -/
def takeDigits : List Char → List Char × List Char
  | [] => ([], [])
  | c :: rest =>
    if c.isDigit then
      let (ds, r) := takeDigits rest
      (c :: ds, r)
    else ([], c :: rest)

/-- Parse an optionally signed decimal literal from the head of a character
list, ignoring any trailing garbage, as JavaScript's `parseFloat` does.
Returns `none` when no digits could be consumed (i.e. `NaN`). -/
def parseDecimalCore (cs : List Char) : Option ℚ :=
  let neg : Bool := cs.head? = some '-'
  let cs1 := if cs.head? = some '-' || cs.head? = some '+' then cs.tail else cs
  let ipAndRest := takeDigits cs1
  let fp : List Char :=
    if ipAndRest.2.head? = some '.' then (takeDigits ipAndRest.2.tail).1 else []
  if ipAndRest.1.isEmpty && fp.isEmpty then none
  else
    let mag : ℚ := (natOfDigits ipAndRest.1 : ℚ) + (natOfDigits fp : ℚ) / (10 : ℚ) ^ fp.length
    some (if neg then -mag else mag)

/-- Model of JavaScript `parseFloat` on a string: skip leading whitespace, then
parse a decimal prefix; `none` models `NaN`. -/
def jsParseFloat (s : String) : Option ℚ :=
  parseDecimalCore (s.data.dropWhile isWsChar)

/-- Replace the first `','` by `'.'` (JavaScript `s.replace(',', '.')`). -/
def replaceFirstCommaAux : List Char → List Char
  | [] => []
  | c :: rest => if c = ',' then '.' :: rest else c :: replaceFirstCommaAux rest

/-- JavaScript `s.replace(',', '.')`: only the first occurrence is replaced. -/
def replaceFirstComma (s : String) : String :=
  ⟨replaceFirstCommaAux s.data⟩

/-- Does `pat` occur at the head of `hay`? -/
def matchesHere : List Char → List Char → Bool
  | [], _ => true
  | _ :: _, [] => false
  | p :: ps, c :: cs => p = c && matchesHere ps cs

/-- Does `pat` occur anywhere in `hay` (JavaScript `String.includes`)? -/
def containsSub : List Char → List Char → Bool
  | [], pat => pat.isEmpty
  | c :: rest, pat => matchesHere pat (c :: rest) || containsSub rest pat

/-- JavaScript `hay.includes(pat)`. -/
def strContainsSub (hay pat : String) : Bool :=
  containsSub hay.data pat.data

/-- JavaScript `s.startsWith(pre)`. -/
def strStartsWith (s pre : String) : Bool :=
  matchesHere pre.data s.data

/-- JavaScript `s.endsWith(suf)`. -/
def strEndsWith (s suf : String) : Bool :=
  matchesHere suf.data.reverse s.data.reverse

/-- JavaScript `s.split(',')`. -/
def splitCommaAux : List Char → List Char → List String
  | [], acc => [⟨acc.reverse⟩]
  | c :: rest, acc =>
    if c = ',' then (⟨acc.reverse⟩ : String) :: splitCommaAux rest []
    else splitCommaAux rest (c :: acc)

/-- JavaScript `s.split(',')` (an empty string yields `[""]`). -/
def splitComma (s : String) : List String :=
  splitCommaAux s.data []

/-- JavaScript `s.trim()` (restricted to the whitespace characters occurring
in the feed). -/
def strTrim (s : String) : String :=
  ⟨((s.data.dropWhile isWsChar).reverse.dropWhile isWsChar).reverse⟩

/-- ASCII lower-casing of one character. -/
def charToLower (c : Char) : Char :=
  if 'A' ≤ c && c ≤ 'Z' then Char.ofNat (c.toNat + 32) else c

/-- JavaScript `s.toLowerCase()` (ASCII field names only). -/
def strToLower (s : String) : String :=
  ⟨s.data.map charToLower⟩

/-- Split on the regular expression `/\r?\n/` exactly as the CSV parser does. -/
def splitLinesAux : List Char → List Char → List String
  | [], acc => [⟨acc.reverse⟩]
  | '\r' :: '\n' :: rest, acc => (⟨acc.reverse⟩ : String) :: splitLinesAux rest []
  | '\n' :: rest, acc => (⟨acc.reverse⟩ : String) :: splitLinesAux rest []
  | c :: rest, acc => splitLinesAux rest (c :: acc)

/-- `csvText.split(/\r?\n/)`. -/
def splitLines (s : String) : List String :=
  splitLinesAux s.data []

/-- A JavaScript value stored in a telemetry row.  `num none` models `NaN`;
`objlike` models a non-primitive value (object or array), whose numeric
coercion yields `NaN`. -/
inductive Value where
  | str (s : String)
  | num (q : Option ℚ)
  | bool (b : Bool)
  | null
  | objlike
deriving DecidableEq, Repr

/-- JavaScript truthiness of a stored value. -/
def Value.truthy : Value → Bool
  | .str s => s ≠ ""
  | .num (some q) => q ≠ 0
  | .num none => false
  | .bool b => b
  | .null => false
  | .objlike => true

/-- JavaScript `parseFloat(v)`: the value is coerced to a string and parsed.
For a number this round-trips; for booleans, `null` and objects the coerced
string has no numeric prefix, so the result is `NaN`. -/
def Value.parseFloatRaw : Value → Option ℚ
  | .str s => jsParseFloat s
  | .num q => q
  | .bool _ => none
  | .null => none
  | .objlike => none

/-- JavaScript `parseFloat(v.toString().replace(',', '.'))` — the
comma-normalizing parse used by `isValidGoaCoordinate` and by the global
confidence scan. -/
def Value.cleanParse : Value → Option ℚ
  | .str s => jsParseFloat (replaceFirstComma s)
  | .num q => q
  | .bool _ => none
  | .null => none
  | .objlike => none

/-- A telemetry row: a JavaScript object modelled as an association list in
insertion order (keys unique in all states the scripts build). -/
abbrev Row := List (String × Value)

/-- Property read `row[key]`; `none` models `undefined`. -/
def Row.get (row : Row) (key : String) : Option Value :=
  (row.find? (fun kv => kv.1 = key)).map (·.2)

/-- Property write `row[key] = v`: overwrite the first binding in place, else
append (JavaScript object insertion-order semantics). -/
def Row.set (row : Row) (key : String) (v : Value) : Row :=
  match row with
  | [] => [(key, v)]
  | (k, w) :: rest => if k = key then (k, v) :: rest else (k, w) :: Row.set rest key v

/-- Rest-destructuring `const { Latitude, Longitude, ...properties } = row`
removes a key entirely. -/
def Row.removeKey (row : Row) (key : String) : Row :=
  row.filter (fun kv => kv.1 ≠ key)

/-- Truthiness of a possibly-absent value (`undefined` is falsy). -/
def truthyOpt : Option Value → Bool
  | none => false
  | some v => v.truthy

/-- JavaScript `parseFloat(x)` where `x` may be `undefined`
(`parseFloat(undefined)` is `NaN`). -/
def parseFloatJS : Option Value → Option ℚ
  | none => none
  | some v => v.parseFloatRaw

/-- JavaScript `x || defaultString`: the value if truthy, else the default. -/
def valueOrDefault (v : Option Value) (d : String) : Value :=
  match v with
  | some w => if w.truthy then w else .str d
  | none => .str d

/-- Latitude range check of `isValidGoaCoordinate` (closed interval). -/
def inLatRange (n : ℚ) : Bool := 14.5 ≤ n && n ≤ 16.0

/-- Longitude range check of `isValidGoaCoordinate` (closed interval). -/
def inLngRange (n : ℚ) : Bool := 73.5 ≤ n && n ≤ 74.5

/-- `isValidGoaCoordinate(value, type)` from the source: reject falsy values,
coerce with a comma-normalizing parse (numbers pass through), reject `NaN`,
then apply the range for `type` (`"lat"`, `"lng"`, or both otherwise). -/
def isValidGoaCoordinate (value : Option Value) (type : String) : Bool :=
  match value with
  | none => false
  | some v =>
    if !v.truthy then false
    else
      match v.cleanParse with
      | none => false
      | some n =>
        if type = "lat" then inLatRange n
        else if type = "lng" then inLngRange n
        else inLatRange n || inLngRange n

/-- Result of a successful coordinate extraction (`{valid: true, lat, lng,
source}`); `lat`/`lng` are JavaScript numbers, so `Option ℚ` with `none` for
`NaN`. -/
structure Coords where
  lat : Option ℚ
  lng : Option ℚ
  source : String
deriving DecidableEq, Repr

/-- Strategy 0, first special case: vehicle `GA 07 G 0308-FFHQ(QUICK
RESPONSE)` with hard-coded default strings substituted for absent/falsy
`Door1`/`Door2`. -/
def special0a (row : Row) : Option Coords :=
  if row.get "Vehicle_No" = some (.str "GA 07 G 0308-FFHQ(QUICK RESPONSE)") then
    let lat := (valueOrDefault (row.get "Door1") "15.486755").parseFloatRaw
    let lng := (valueOrDefault (row.get "Door2") "73.817429").parseFloatRaw
    if lat.isSome && lng.isSome
        && isValidGoaCoordinate (some (.num lat)) "lat"
        && isValidGoaCoordinate (some (.num lng)) "lng" then
      some ⟨lat, lng, "special_case_Door1_Door2"⟩
    else none
  else none

/-- Strategy 0, second special case: vehicle `GA 07 G 0350-PNJ(WATER TENDER)`
with defaults for `IGN`/`Power`. -/
def special0b (row : Row) : Option Coords :=
  if row.get "Vehicle_No" = some (.str "GA 07 G 0350-PNJ(WATER TENDER)") then
    let lat := (valueOrDefault (row.get "IGN") "15.0236433").parseFloatRaw
    let lng := (valueOrDefault (row.get "Power") "74.04406").parseFloatRaw
    if lat.isSome && lng.isSome
        && isValidGoaCoordinate (some (.num lat)) "lat"
        && isValidGoaCoordinate (some (.num lng)) "lng" then
      some ⟨lat, lng, "special_case_IGN_Power"⟩
    else none
  else none

/-- Strategy 0: the known-vehicle overrides, in source order. -/
def strategy0 (row : Row) : Option Coords :=
  match special0a row with
  | some c => some c
  | none => special0b row

/-- Strategy 1: the known misplacement pairs `Door1`/`Door2` then
`IGN`/`Power`; note the returned values use the raw (comma-unaware)
`parseFloat`, while the validation uses the comma-normalizing parse. -/
def strategy1 (row : Row) : Option Coords :=
  if isValidGoaCoordinate (row.get "Door1") "lat"
      && isValidGoaCoordinate (row.get "Door2") "lng" then
    some ⟨parseFloatJS (row.get "Door1"), parseFloatJS (row.get "Door2"), "Door1/Door2"⟩
  else if isValidGoaCoordinate (row.get "IGN") "lat"
      && isValidGoaCoordinate (row.get "Power") "lng" then
    some ⟨parseFloatJS (row.get "IGN"), parseFloatJS (row.get "Power"), "IGN/Power"⟩
  else none

/-- The fixed candidate-field list of the sliding-window scan. -/
def locationFields : List String :=
  ["Location", "POI", "Datetime", "Latitude", "Longitude", "Status", "Speed"]

/-- The adjacent pairs `(locationFields[i], locationFields[i+1])`. -/
def windowPairs : List (String × String) :=
  locationFields.zip locationFields.tail

/-- One iteration of the sliding-window loop: skip if either field is falsy or
either raw parse is `NaN`; accept `(lat, lng)` in given order, else swapped. -/
def pairCandidate (row : Row) (f1 f2 : String) : Option Coords :=
  if !truthyOpt (row.get f1) || !truthyOpt (row.get f2) then none
  else
    match parseFloatJS (row.get f1), parseFloatJS (row.get f2) with
    | some v1, some v2 =>
      if isValidGoaCoordinate (some (.num (some v1))) "lat"
          && isValidGoaCoordinate (some (.num (some v2))) "lng" then
        some ⟨some v1, some v2, f1 ++ "/" ++ f2⟩
      else if isValidGoaCoordinate (some (.num (some v1))) "lng"
          && isValidGoaCoordinate (some (.num (some v2))) "lat" then
        some ⟨some v2, some v1, f2 ++ "/" ++ f1⟩
      else none
    | _, _ => none

/-- The `coordPairs` array accumulated by the sliding-window scan. -/
def coordPairs (row : Row) : List Coords :=
  windowPairs.filterMap (fun p => pairCandidate row p.1 p.2)

/-- Strategy 2: take the first accepted sliding-window pair, if any. -/
def strategy2 (row : Row) : Option Coords :=
  (coordPairs row).head?

/-- Latitude confidence score of the global scan: 10 if the lowercased field
name contains `"lat"`, 8 for the known misplacement fields, else 5. -/
def latConfOf (field : String) : ℕ :=
  if strContainsSub (strToLower field) "lat" then 10
  else if field = "IGN" || field = "Door1" then 8
  else 5

/-- Longitude confidence score of the global scan. -/
def lngConfOf (field : String) : ℕ :=
  if strContainsSub (strToLower field) "lon" then 10
  else if field = "Power" || field = "Door2" then 8
  else 5

/-- Mutable state of the global confidence scan (`bestLat`, `latConfidence`,
`latField`, and the longitude counterparts). -/
structure ScanState where
  bestLat : Option ℚ
  latConfidence : ℕ
  latField : String
  bestLng : Option ℚ
  lngConfidence : ℕ
  lngField : String
deriving DecidableEq, Repr

/-- One iteration of the global confidence scan over a row entry. -/
def scanStep (acc : ScanState) (entry : String × Value) : ScanState :=
  if !entry.2.truthy then acc
  else
    match entry.2.cleanParse with
    | none => acc
    | some num =>
      let acc1 :=
        if isValidGoaCoordinate (some (.num (some num))) "lat" then
          let confidence := latConfOf entry.1
          if confidence > acc.latConfidence then
            { acc with bestLat := some num, latConfidence := confidence, latField := entry.1 }
          else acc
        else acc
      if isValidGoaCoordinate (some (.num (some num))) "lng" then
        let confidence := lngConfOf entry.1
        if confidence > acc1.lngConfidence then
          { acc1 with bestLng := some num, lngConfidence := confidence, lngField := entry.1 }
        else acc1
      else acc1

/-- Initial scan state (`bestLat = null`, confidences 0, fields empty). -/
def initScan : ScanState := ⟨none, 0, "", none, 0, ""⟩

/-- The global confidence scan over all fields in insertion order. -/
def scanRow (row : Row) : ScanState :=
  row.foldl scanStep initScan

/-- Strategy 3: geography-based detection; succeeds when both a best latitude
and a best longitude were found. -/
def strategy3 (row : Row) : Option Coords :=
  let fin := scanRow row
  match fin.bestLat, fin.bestLng with
  | some la, some lo => some ⟨some la, some lo, fin.latField ++ "/" ++ fin.lngField⟩
  | _, _ => none

/-- The cascade after strategy 0 (strategies 1–3, first success wins). -/
def cascadeAfter0 (row : Row) : Option Coords :=
  match strategy1 row with
  | some c => some c
  | none =>
    match strategy2 row with
    | some c => some c
    | none => strategy3 row

/-- `extractCoordinates(row)`: the full cascade, first success wins. -/
def extractCoordinates (row : Row) : Option Coords :=
  match strategy0 row with
  | some c => some c
  | none => cascadeAfter0 row

/-! ## CSV parsing (`parseFiretruckCSV`) -/

/-- Strip a surrounding pair of double quotes; `value.substring(1,
value.length - 1)` swaps its arguments when the string is the single
character `"`, leaving it unchanged. -/
def stripQuotes (value : String) : String :=
  if strStartsWith value "\"" && strEndsWith value "\"" then
    if value.length = 1 then value else ⟨(value.data.drop 1).dropLast⟩
  else value

/-- Build a row by positional assignment `row[header] = values[index] || ''`
with quote stripping; headers past the end of `values` get empty strings. -/
def buildRowAux : List String → List String → Row → Row
  | [], _, row => row
  | h :: hs, vs, row =>
    let raw : String :=
      match vs with
      | v :: _ => v
      | [] => ""
    buildRowAux hs vs.tail (row.set h (.str (stripQuotes raw)))

/-- The row object produced for one header/data line pair. -/
def buildRow (headers values : List String) : Row :=
  buildRowAux headers values []

/-- Headers extracted from a header line: split on commas and trim. -/
def headersOf (headerLine : String) : List String :=
  (splitComma headerLine).map strTrim

/-- Does a line contain the terminating marker (`line.includes('No Data
Found')`)? -/
def noDataFound (line : String) : Bool :=
  strContainsSub line "No Data Found"

/-- Per-row tail of the CSV loop: resolve coordinates; on success overwrite
`Latitude`/`Longitude` with the resolved numbers and keep the row, else drop
it. -/
def processParsedRow (row : Row) : List Row :=
  match extractCoordinates row with
  | some c => [(row.set "Latitude" (.num c.lat)).set "Longitude" (.num c.lng)]
  | none => []

/-- The header/data alternation loop of `parseFiretruckCSV`: consume a line in
header position (updating `headers` only when it starts with `"Company,"`),
stop when no line follows or the next line contains `"No Data Found"`, else
consume the next line as the data line for the current headers. -/
def parseLoopAux : List String → List String → List Row
  | [], _ => []
  | headerLine :: rest, headers =>
    let headers1 := if strStartsWith headerLine "Company," then headersOf headerLine else headers
    match rest with
    | [] => []
    | dataLine :: rest2 =>
      if noDataFound dataLine then []
      else processParsedRow (buildRow headers1 (splitComma dataLine)) ++ parseLoopAux rest2 headers1

/-- `parseFiretruckCSV(csvText)`: empty text yields no rows; otherwise split
into non-blank lines and run the header/data loop (an empty line list also
yields no rows, as in the source's early return). -/
def parseFiretruckCSV (csvText : String) : List Row :=
  if csvText = "" then []
  else parseLoopAux ((splitLines csvText).filter (fun line => (strTrim line).length > 0)) []

/-! ## JSON payload handling (`fetchAndCacheData` in `index.js`) -/

/-- A JSON value as returned by `response.json()`. -/
inductive Json where
  | obj (kvs : List (String × Json))
  | arr (items : List Json)
  | str (s : String)
  | num (q : ℚ)
  | jbool (b : Bool)
  | null

/-- Property access `j[k]`; `none` models `undefined`. -/
def Json.getKey (j : Json) (k : String) : Option Json :=
  match j with
  | .obj kvs => (kvs.find? (fun kv => kv.1 = k)).map (·.2)
  | _ => none

/-- JavaScript truthiness of a possibly-absent JSON value. -/
def jsonTruthy : Option Json → Bool
  | none => false
  | some (.obj _) => true
  | some (.arr _) => true
  | some (.str s) => s ≠ ""
  | some (.num q) => q ≠ 0
  | some (.jbool b) => b
  | some .null => false

/-- `Array.isArray(j)`. -/
def Json.isArray : Json → Bool
  | .arr _ => true
  | _ => false

/-- The items of a JSON array, if it is one. -/
def Json.asArr : Json → Option (List Json)
  | .arr items => some items
  | _ => none

/-- The vehicle-array detection of `fetchAndCacheData`: in order,
`jsonData.root.VehicleData`, the payload itself when it is an array, then
`jsonData.data` (taking `data.VehicleData || []` when `data` is not an
array); otherwise `rows` stays the empty array. -/
def extractRows (jsonData : Json) : Json :=
  let rootVehicleData := (jsonData.getKey "root").bind (fun r => r.getKey "VehicleData")
  if jsonTruthy (some jsonData) && jsonTruthy (jsonData.getKey "root")
      && jsonTruthy rootVehicleData then
    match rootVehicleData with
    | some v => v
    | none => .arr []
  else if jsonData.isArray then jsonData
  else if jsonTruthy (some jsonData) && jsonTruthy (jsonData.getKey "data") then
    match jsonData.getKey "data" with
    | some d =>
      if d.isArray then d
      else
        match d.getKey "VehicleData" with
        | some v => if jsonTruthy (some v) then v else .arr []
        | none => .arr []
    | none => .arr []
  else .arr []

/-- A primitive JSON value as a row value (objects and arrays become the
non-primitive marker). -/
def valueOfJson : Json → Value
  | .str s => .str s
  | .num q => .num (some q)
  | .jbool b => .bool b
  | .null => .null
  | .obj _ => .objlike
  | .arr _ => .objlike

/-- A JSON record as a telemetry row; field access on a non-object record
yields `undefined`, so it is modelled by the empty row. -/
def rowOfJson : Json → Row
  | .obj kvs => kvs.map (fun kv => (kv.1, valueOfJson kv.2))
  | _ => []

/-- The per-row coercion `if (row.Latitude) row.Latitude =
parseFloat(row.Latitude)` applied to one key. -/
def coerceField (row : Row) (key : String) : Row :=
  match row.get key with
  | some v => if v.truthy then row.set key (.num v.parseFloatRaw) else row
  | none => row

/-- The `rows.forEach` mutation: coerce `Latitude` then `Longitude`. -/
def processRow2 (row : Row) : Row :=
  coerceField (coerceField row "Latitude") "Longitude"

/-- The filter predicate keeping rows with valid Goa coordinates. -/
def validCheck (row : Row) : Bool :=
  isValidGoaCoordinate (row.get "Latitude") "lat"
    && isValidGoaCoordinate (row.get "Longitude") "lng"

/-- Coerce all rows, then keep only those passing the bounding-box check. -/
def validRowsOf (rows : List Row) : List Row :=
  (rows.map processRow2).filter validCheck

/-! ## Snapshot writer -/

/-- A GeoJSON point feature of the snapshot: geometry coordinates are
`[Longitude, Latitude]` as stored in the row, properties are the remaining
fields. -/
structure PointFeature where
  ftype : String
  gtype : String
  lngCoord : Option Value
  latCoord : Option Value
  properties : Row
deriving DecidableEq, Repr

/-- The feature produced for one row by the snapshot writer. -/
def featureOfRow (row : Row) : PointFeature :=
  ⟨"Feature", "Point", row.get "Longitude", row.get "Latitude",
    (row.removeKey "Latitude").removeKey "Longitude"⟩

/-- The snapshot FeatureCollection with metadata. -/
structure Snapshot where
  ftype : String
  timestamp : String
  source : String
  count : ℕ
  features : List PointFeature
deriving DecidableEq, Repr

/-- The snapshot written for the given (already validated) rows. -/
def snapshotOf (validRows : List Row) (now : String) : Snapshot :=
  ⟨"FeatureCollection", now, "Directorate of Fire Emergency Services, Govt. of Goa",
    validRows.length, validRows.map featureOfRow⟩

/-! ## Daily track accumulator (`updateDailyGpxTracks`) -/

/-- A per-vehicle LineString feature of a daily track file.  Coordinates are
`[lng, lat]` pairs; `vehicleNo` is `""` when the feature lacks a truthy
`properties.Vehicle_No` (such features are not indexed). -/
structure TrackFeature where
  ftype : String
  gtype : String
  coordinates : List (ℚ × ℚ)
  vehicleNo : String
  vehicleName : Value
  branch : Value
  created : Value
  lastUpdated : Value
deriving DecidableEq, Repr

/-- A daily track FeatureCollection with its metadata block. -/
structure TracksGeoJson where
  ftype : String
  metaDate : String
  metaSource : String
  metaDescription : String
  metaLastUpdated : Option String
  metaCount : Option ℕ
  features : List TrackFeature
deriving DecidableEq, Repr

/-- The fresh tracks object initialized at the top of `updateDailyGpxTracks`. -/
def initialTracks (today : String) : TracksGeoJson :=
  ⟨"FeatureCollection", today, "Directorate of Fire Emergency Services, Govt. of Goa",
    "Daily GPS tracks of fire trucks", none, none, []⟩

/-- Loading the persisted daily track: `none` models an absent file,
`some none` a file whose content fails to parse (the caught `JSON.parse`
error leaves the fresh default in place), `some (some t)` a parsed file. -/
def loadTracks (today : String) (stored : Option (Option TracksGeoJson)) : TracksGeoJson :=
  match stored with
  | some (some t) => t
  | some none => initialTracks today
  | none => initialTracks today

/-- Object-assignment on the vehicle-to-index map (overwrite first binding,
else append). -/
def mapSet (m : List (String × ℕ)) (k : String) (v : ℕ) : List (String × ℕ) :=
  match m with
  | [] => [(k, v)]
  | (k1, v1) :: rest => if k1 = k then (k1, v) :: rest else (k1, v1) :: mapSet rest k v

/-- Lookup on the vehicle-to-index map. -/
def mapGet (m : List (String × ℕ)) (k : String) : Option ℕ :=
  (m.find? (fun kv => kv.1 = k)).map (·.2)

/-- `vehicleTrackMap`: index every feature with a truthy `Vehicle_No`; a later
feature with the same id overwrites the earlier index. -/
def buildVehicleMap (features : List TrackFeature) : List (String × ℕ) :=
  features.enum.foldl
    (fun m p => if p.2.vehicleNo ≠ "" then mapSet m p.2.vehicleNo p.1 else m) []

/-- `truck.Vehicle_No` as a map key when it is a truthy string (the feeds only
carry string vehicle ids; a numeric id's string coercion is not modelled). -/
def vehicleIdOf (truck : Row) : Option String :=
  match truck.get "Vehicle_No" with
  | some (.str s) => if s = "" then none else some s
  | _ => none

/-- `truck.Datetime || new Date().toISOString()` with `now` standing for the
run's clock reading. -/
def timestampOf (truck : Row) (now : String) : Value :=
  match truck.get "Datetime" with
  | some v => if v.truthy then v else .str now
  | none => .str now

/-- `truck.Vehicle_Name || ''` (and `truck.Branch || ''`). -/
def nameOr (v : Option Value) : Value :=
  match v with
  | some w => if w.truthy then w else .str ""
  | none => .str ""

/-- `feature.geometry.coordinates.push(coords)` together with
`feature.properties.lastUpdated = timestamp` — the in-place append to an
existing track feature. -/
def appendPoint (feature : TrackFeature) (lngNum latNum : ℚ) (ts : Value) : TrackFeature :=
  { feature with coordinates := feature.coordinates ++ [(lngNum, latNum)], lastUpdated := ts }

/-- One iteration of the `trucks.forEach` loop: skip records without a truthy
vehicle id or with non-finite parsed coordinates; append the `[lng, lat]`
point to the vehicle's existing feature unless it equals the feature's last
point (updating `lastUpdated` only on append); create a fresh single-point
feature for unseen vehicles and index it. -/
def trackStep (now : String) (st : TracksGeoJson × List (String × ℕ)) (truck : Row) :
    TracksGeoJson × List (String × ℕ) :=
  match vehicleIdOf truck with
  | none => st
  | some vehicleId =>
    match parseFloatJS (truck.get "Longitude"), parseFloatJS (truck.get "Latitude") with
    | some lngNum, some latNum =>
      match mapGet st.2 vehicleId with
      | some featureIndex =>
        match st.1.features.get? featureIndex with
        | some feature =>
          match feature.coordinates.getLast? with
          | none =>
            ({ st.1 with features := st.1.features.set featureIndex (appendPoint feature lngNum latNum (timestampOf truck now)) }, st.2)
          | some lastCoord =>
            if lastCoord.1 ≠ lngNum ∨ lastCoord.2 ≠ latNum then
              ({ st.1 with features := st.1.features.set featureIndex (appendPoint feature lngNum latNum (timestampOf truck now)) }, st.2)
            else st
        | none => st
      | none =>
        ({ st.1 with features := st.1.features
            ++ [⟨"Feature", "LineString", [(lngNum, latNum)], vehicleId,
                  nameOr (truck.get "Vehicle_Name"), nameOr (truck.get "Branch"),
                  timestampOf truck now, timestampOf truck now⟩] },
          mapSet st.2 vehicleId st.1.features.length)
    | _, _ => st

/-- `updateDailyGpxTracks(trucks)`: load or initialize today's track
collection, fold the per-truck update over it, then refresh the collection
metadata.  `now` stands for the run's clock reading. -/
def updateDailyGpxTracks (trucks : List Row) (today now : String)
    (stored : Option (Option TracksGeoJson)) : TracksGeoJson :=
  let t0 := loadTracks today stored
  let fin := trucks.foldl (trackStep now) (t0, buildVehicleMap t0.features)
  { fin.1 with metaLastUpdated := some now, metaCount := some fin.1.features.length }

/-! ## End-to-end JSON pipeline -/

/-- The pure core of `fetchAndCacheData` (JSON mode) after the payload is
received: locate the vehicle array (a non-array value at a detected location
crashes the run, modelled by `none`), coerce coordinates, filter, build the
snapshot, and update the daily tracks.  The third component is the
module-level `parsedFireTrucks` (the coerced but unfiltered rows, since the
`forEach` mutates the very row objects that were saved). -/
def fetchAndCachePipeline (jsonData : Json) (now today : String)
    (stored : Option (Option TracksGeoJson)) :
    Option (Snapshot × TracksGeoJson × List Row) :=
  match (extractRows jsonData).asArr with
  | none => none
  | some items =>
    let processed := (items.map rowOfJson).map processRow2
    let valid := processed.filter validCheck
    some (snapshotOf valid now, updateDailyGpxTracks valid today now stored, processed)

/-- `createDailyTracks` after a fetch in the same process: the exported
`parsedFireTrucks` (unfiltered) are fed to `updateDailyGpxTracks` again, on
top of the file the fetch just wrote. -/
def createDailyTracksUsing (jsonData : Json) (now today : String)
    (stored : Option (Option TracksGeoJson)) : Option TracksGeoJson :=
  match fetchAndCachePipeline jsonData now today stored with
  | some (_, tracks1, parsed) =>
    some (updateDailyGpxTracks parsed today now (some (some tracks1)))
  | none => none

/-! ## Helper lemmas -/

theorem isWsChar_false_of_digit {c : Char} (h : c.isDigit = true) : isWsChar c = false := by
  rcases eq_or_ne c ' ' with rfl | h1
  · exact absurd h (by decide)
  rcases eq_or_ne c '\t' with rfl | h2
  · exact absurd h (by decide)
  rcases eq_or_ne c '\n' with rfl | h3
  · exact absurd h (by decide)
  rcases eq_or_ne c '\r' with rfl | h4
  · exact absurd h (by decide)
  simp [isWsChar, h1, h2, h3, h4]

theorem ne_dash_of_digit {c : Char} (h : c.isDigit = true) : c ≠ '-' := by
  rintro rfl; exact absurd h (by decide)

theorem ne_plus_of_digit {c : Char} (h : c.isDigit = true) : c ≠ '+' := by
  rintro rfl; exact absurd h (by decide)

theorem ne_comma_of_digit {c : Char} (h : c.isDigit = true) : c ≠ ',' := by
  rintro rfl; exact absurd h (by decide)

theorem takeDigits_cons_not {c : Char} {l : List Char} (h : c.isDigit = false) :
    takeDigits (c :: l) = ([], c :: l) := by
  simp [takeDigits, h]

theorem takeDigits_append_all {ds : List Char} (rest : List Char)
    (h : ds.all Char.isDigit = true) :
    takeDigits (ds ++ rest) = (ds ++ (takeDigits rest).1, (takeDigits rest).2) := by
  induction ds with
  | nil => simp
  | cons c cs ih =>
    rw [List.all_cons, Bool.and_eq_true] at h
    simp [takeDigits, h.1, ih h.2]

theorem takeDigits_all {ds : List Char} (h : ds.all Char.isDigit = true) :
    takeDigits ds = (ds, []) := by
  have := takeDigits_append_all [] h
  simpa [takeDigits] using this

theorem replaceFirstCommaAux_no_comma_append {ds ts : List Char} (h : ',' ∉ ds) :
    replaceFirstCommaAux (ds ++ ',' :: ts) = ds ++ '.' :: ts := by
  induction ds with
  | nil => simp [replaceFirstCommaAux]
  | cons c cs ih =>
    have hc : c ≠ ',' := fun he => h (by simp [he])
    have hcs : ',' ∉ cs := fun hm => h (List.mem_cons_of_mem _ hm)
    simp [replaceFirstCommaAux, hc, ih hcs]

/-- The raw parse of a digit string followed by a comma and anything else
stops at the comma: only the integer part is returned. -/
theorem jsParseFloat_digits_comma_raw {d : Char} {ds ts : List Char}
    (hs : (d :: ds).all Char.isDigit = true) :
    parseDecimalCore (d :: ds ++ ',' :: ts) = some (natOfDigits (d :: ds)) := by
  have hd : d.isDigit = true := by
    rw [List.all_cons, Bool.and_eq_true] at hs; exact hs.1
  have h1 : d ≠ '-' := ne_dash_of_digit hd
  have h2 : d ≠ '+' := ne_plus_of_digit hd
  have htake : takeDigits ((d :: ds) ++ ',' :: ts)
      = ((d :: ds) ++ (takeDigits (',' :: ts)).1, (takeDigits (',' :: ts)).2) :=
    takeDigits_append_all _ hs
  rw [takeDigits_cons_not (by decide)] at htake
  simp only [List.append_nil, List.cons_append] at htake
  simp [parseDecimalCore, h1, h2, htake, natOfDigits_nil]

/-- The comma-normalized parse of `digits , digits` reads the full decimal
value. -/
theorem jsParseFloat_digits_comma_clean {d : Char} {ds ts : List Char}
    (hs : (d :: ds).all Char.isDigit = true) (ht : ts.all Char.isDigit = true) :
    parseDecimalCore (replaceFirstCommaAux (d :: ds ++ ',' :: ts))
      = some ((natOfDigits (d :: ds) : ℚ) + (natOfDigits ts : ℚ) / (10 : ℚ) ^ ts.length) := by
  have hd : d.isDigit = true := by
    rw [List.all_cons, Bool.and_eq_true] at hs; exact hs.1
  have h1 : d ≠ '-' := ne_dash_of_digit hd
  have h2 : d ≠ '+' := ne_plus_of_digit hd
  have hnc : ',' ∉ d :: ds := by
    intro hm
    rw [List.all_eq_true] at hs
    exact ne_comma_of_digit (hs _ hm) rfl
  rw [show (d :: ds ++ ',' :: ts : List Char) = (d :: ds) ++ ',' :: ts from rfl,
    replaceFirstCommaAux_no_comma_append hnc]
  have htake : takeDigits ((d :: ds) ++ '.' :: ts)
      = ((d :: ds) ++ (takeDigits ('.' :: ts)).1, (takeDigits ('.' :: ts)).2) :=
    takeDigits_append_all _ hs
  rw [takeDigits_cons_not (by decide)] at htake
  simp only [List.append_nil, List.cons_append] at htake
  simp [parseDecimalCore, h1, h2, htake, takeDigits_all ht]

theorem Row.get_set_self (row : Row) (k : String) (v : Value) :
    (Row.set row k v).get k = some v := by
  induction row with
  | nil => simp [Row.set, Row.get]
  | cons kv rest ih =>
    obtain ⟨k1, w⟩ := kv
    by_cases h : k1 = k
    · simp [Row.set, Row.get, h]
    · simp only [Row.set, h, if_false]
      simpa [Row.get, List.find?_cons, h] using ih

theorem Row.get_set_ne (row : Row) {k k' : String} (v : Value) (h : k' ≠ k) :
    (Row.set row k v).get k' = row.get k' := by
  induction row with
  | nil => simp [Row.set, Row.get, Ne.symm h]
  | cons kv rest ih =>
    obtain ⟨k1, w⟩ := kv
    by_cases hk : k1 = k
    · subst hk
      simp [Row.set, Row.get, List.find?_cons, Ne.symm h]
    · by_cases hk' : k1 = k'
      · subst hk'
        simp [Row.set, Row.get, List.find?_cons, hk]
      · simp only [Row.set, hk, if_false]
        simpa [Row.get, List.find?_cons, hk'] using ih

/- Batteries marks the rational operations `@[irreducible]`, which blocks
`decide`/`rfl` evaluation of the embedded functions; restore the default
reducibility for this development. -/
attribute [local semireducible] Rat.add Rat.mul Rat.inv Rat.sub Rat.ofScientific

/-! ## Claims -/

/-- **C8.** A persisted daily track file whose content fails to parse
(`stored = some none`) is treated exactly as an absent file: the accumulator
proceeds on a fresh empty `DailyTrack` of type `FeatureCollection` with a
metadata block containing the date, source and description, and the run does
not fail (the update is a total function of the same trucks). -/
theorem corruptTrack_treated_as_absent (trucks : List Row) (today now : String) :
    updateDailyGpxTracks trucks today now (some none)
        = updateDailyGpxTracks trucks today now none
    ∧ loadTracks today (some none) = initialTracks today
    ∧ (initialTracks today).ftype = "FeatureCollection"
    ∧ (initialTracks today).metaDate = today
    ∧ (initialTracks today).metaSource
        = "Directorate of Fire Emergency Services, Govt. of Goa"
    ∧ (initialTracks today).metaDescription = "Daily GPS tracks of fire trucks"
    ∧ (initialTracks today).features = [] :=
  ⟨rfl, rfl, rfl, rfl, rfl, rfl, rfl⟩

/-- **C9.** The CSV loop consumes lines in strict header/data alternation: a
line in header position that does not start with `"Company,"` is still
consumed with the previously seen headers remaining in effect and the very
next line treated as that block's data line; consequently a header line
immediately followed by another header line causes the second to be parsed
as a data row under the first block's headers. -/
theorem csv_header_data_alternation
    (hline d : String) (rest headers : List String)
    (h1 h2 : String) (rest2 headers0 : List String)
    (hnh : strStartsWith hline "Company," = false)
    (hnd : noDataFound d = false)
    (hh1 : strStartsWith h1 "Company," = true)
    (_hh2 : strStartsWith h2 "Company," = true)
    (hnd2 : noDataFound h2 = false) :
    parseLoopAux (hline :: d :: rest) headers
        = processParsedRow (buildRow headers (splitComma d))
            ++ parseLoopAux rest headers
    ∧ parseLoopAux (h1 :: h2 :: rest2) headers0
        = processParsedRow (buildRow (headersOf h1) (splitComma h2))
            ++ parseLoopAux rest2 (headersOf h1) := by
  constructor
  · simp [parseLoopAux, hnh, hnd]
  · simp [parseLoopAux, hh1, hnd2]

/-- Witness for C9 at a concrete payload: a non-header line in header
position, and a double-header block. -/
theorem csv_header_data_alternation_witness :
    parseLoopAux ["Vehicle,1,2", "a,b", "x,y"] ["H1", "H2"]
        = processParsedRow (buildRow ["H1", "H2"] (splitComma "a,b"))
            ++ parseLoopAux ["x,y"] ["H1", "H2"]
    ∧ parseLoopAux ["Company,A", "Company,B", "z,w"] []
        = processParsedRow (buildRow (headersOf "Company,A") (splitComma "Company,B"))
            ++ parseLoopAux ["z,w"] (headersOf "Company,A") :=
  csv_header_data_alternation "Vehicle,1,2" "a,b" ["x,y"] ["H1", "H2"]
    "Company,A" "Company,B" ["z,w"] [] (by decide) (by decide) (by decide)
    (by decide) (by decide)

/-- The known-override vehicle with both override fields absent. -/
def rowC1 : Row := [("Vehicle_No", .str "GA 07 G 0308-FFHQ(QUICK RESPONSE)")]

/-- **C1 counterexample.** For the first known-override vehicle with `Door1`
and `Door2` absent, the Resolver does **not** fall back to the later
strategies (all of which fail here): it returns the hard-coded substitute
coordinates `(15.486755, 73.817429)`. -/
theorem override_substitutes_on_absent_fields :
    Row.get rowC1 "Door1" = none ∧ Row.get rowC1 "Door2" = none
    ∧ strategy1 rowC1 = none ∧ strategy2 rowC1 = none ∧ strategy3 rowC1 = none
    ∧ extractCoordinates rowC1
        = some ⟨some (15.486755 : ℚ), some (73.817429 : ℚ), "special_case_Door1_Door2"⟩ := by
  decide

theorem strategy0_sp1 (row : Row)
    (h : Row.get row "Vehicle_No" = some (.str "GA 07 G 0308-FFHQ(QUICK RESPONSE)")) :
    strategy0 row = special0a row := by
  unfold strategy0
  cases hs : special0a row with
  | some c => rfl
  | none =>
    show special0b row = none
    have hb : ¬ (Row.get row "Vehicle_No" = some (.str "GA 07 G 0350-PNJ(WATER TENDER)")) := by
      rw [h]; intro he; exact absurd (Option.some.inj he) (by decide)
    simp [special0b, hb]

theorem strategy0_sp2 (row : Row)
    (h : Row.get row "Vehicle_No" = some (.str "GA 07 G 0350-PNJ(WATER TENDER)")) :
    strategy0 row = special0b row := by
  have ha : special0a row = none := by
    unfold special0a
    rw [h, if_neg (by decide)]
  unfold strategy0
  rw [ha]

/-- **C1 amended.** For each known-override vehicle, the override reads its
fields with a hard-coded default string substituted for an absent or falsy
value, and fires exactly when the resulting values parse as numbers inside
the bounding box (`special0a` / `special0b`); only otherwise does the
Resolver fall back to the later strategies.  In particular, with the
override fields absent, each vehicle resolves to its fixed substitute
coordinates rather than falling back. -/
theorem override_applies_with_defaults (row row2 : Row)
    (h : Row.get row "Vehicle_No" = some (.str "GA 07 G 0308-FFHQ(QUICK RESPONSE)"))
    (h2 : Row.get row2 "Vehicle_No" = some (.str "GA 07 G 0350-PNJ(WATER TENDER)")) :
    ((∀ c, special0a row = some c → extractCoordinates row = some c)
      ∧ (special0a row = none → extractCoordinates row = cascadeAfter0 row)
      ∧ (Row.get row "Door1" = none → Row.get row "Door2" = none →
          extractCoordinates row
            = some ⟨some (15.486755 : ℚ), some (73.817429 : ℚ), "special_case_Door1_Door2"⟩))
    ∧ ((∀ c, special0b row2 = some c → extractCoordinates row2 = some c)
      ∧ (special0b row2 = none → extractCoordinates row2 = cascadeAfter0 row2)
      ∧ (Row.get row2 "IGN" = none → Row.get row2 "Power" = none →
          extractCoordinates row2
            = some ⟨some (15.0236433 : ℚ), some (74.04406 : ℚ), "special_case_IGN_Power"⟩)) := by
  refine ⟨⟨?_, ?_, ?_⟩, ?_, ?_, ?_⟩
  · intro c hc
    unfold extractCoordinates
    rw [strategy0_sp1 row h, hc]
  · intro hnone
    unfold extractCoordinates
    rw [strategy0_sp1 row h, hnone]
  · intro hD1 hD2
    have hsa : special0a row
        = some ⟨some (15.486755 : ℚ), some (73.817429 : ℚ), "special_case_Door1_Door2"⟩ := by
      unfold special0a
      rw [if_pos h, hD1, hD2]
      decide
    unfold extractCoordinates
    rw [strategy0_sp1 row h, hsa]
  · intro c hc
    unfold extractCoordinates
    rw [strategy0_sp2 row2 h2, hc]
  · intro hnone
    unfold extractCoordinates
    rw [strategy0_sp2 row2 h2, hnone]
  · intro hI hP
    have hsb : special0b row2
        = some ⟨some (15.0236433 : ℚ), some (74.04406 : ℚ), "special_case_IGN_Power"⟩ := by
      unfold special0b
      rw [if_pos h2, hI, hP]
      decide
    unfold extractCoordinates
    rw [strategy0_sp2 row2 h2, hsb]

/-- The second known-override vehicle with both override fields absent. -/
def rowC1b : Row := [("Vehicle_No", .str "GA 07 G 0350-PNJ(WATER TENDER)")]

/-- Witness for C1's amended theorem at the two concrete override records
with absent fields. -/
theorem override_applies_with_defaults_witness :
    extractCoordinates rowC1
        = some ⟨some (15.486755 : ℚ), some (73.817429 : ℚ), "special_case_Door1_Door2"⟩
    ∧ extractCoordinates rowC1b
        = some ⟨some (15.0236433 : ℚ), some (74.04406 : ℚ), "special_case_IGN_Power"⟩ :=
  ⟨(override_applies_with_defaults rowC1 rowC1b rfl rfl).1.2.2 rfl rfl,
   (override_applies_with_defaults rowC1 rowC1b rfl rfl).2.2.2 rfl rfl⟩

/-- A record carrying comma-decimal coordinate strings in the known
misplacement fields. -/
def rowC3 : Row := [("Door1", .str "15,486755"), ("Door2", .str "73,817429")]

/-- **C3 counterexample.** A comma-decimal string passes the (normalizing)
validator, so strategy 1 fires — but its returned values come from the raw
`parseFloat`, which stops at the comma: the Resolver yields `15`/`73`, not
the point-separated values. -/
theorem comma_normalization_not_in_early_strategies :
    isValidGoaCoordinate (Row.get rowC3 "Door1") "lat" = true
    ∧ isValidGoaCoordinate (Row.get rowC3 "Door2") "lng" = true
    ∧ extractCoordinates rowC3 = some ⟨some (15 : ℚ), some (73 : ℚ), "Door1/Door2"⟩
    ∧ (15 : ℚ) ≠ 15.486755 ∧ (73 : ℚ) ≠ 73.817429 := by
  decide

/-- **C3 amended.** Comma-to-point normalization happens only in the
validator and in the global confidence scan's parse: the raw `parseFloat`
used by strategies 0–2 truncates a `digits , digits` string at the comma,
while the normalized parse reads the full decimal value; hence a
comma-decimal record resolved through strategy 1 yields the truncated
values, and the same record resolved only by the global scan yields the
equivalent point-separated value. -/
theorem comma_decimal_parse_paths (s t : String)
    (hne : s.data ≠ []) (hs : s.data.all Char.isDigit = true)
    (ht : t.data.all Char.isDigit = true) :
    jsParseFloat (s ++ "," ++ t) = some (natOfDigits s.data)
    ∧ jsParseFloat (replaceFirstComma (s ++ "," ++ t))
        = some ((natOfDigits s.data : ℚ) + (natOfDigits t.data : ℚ) / (10 : ℚ) ^ t.data.length)
    ∧ extractCoordinates rowC3 = some ⟨some (15 : ℚ), some (73 : ℚ), "Door1/Door2"⟩
    ∧ extractCoordinates [("Foo", .str "15,486755"), ("Bar", .str "73,817429")]
        = some ⟨some (15.486755 : ℚ), some (73.817429 : ℚ), "Foo/Bar"⟩ := by
  obtain ⟨d, ds, hd⟩ : ∃ d ds, s.data = d :: ds := by
    cases hsd : s.data with
    | nil => exact absurd hsd hne
    | cons a l => exact ⟨a, l, rfl⟩
  have hdata : (s ++ "," ++ t).data = d :: ds ++ ',' :: t.data := by
    rw [String.data_append, String.data_append, hd]
    simp
  rw [hd] at hs
  have hdd : d.isDigit = true := by
    rw [List.all_cons, Bool.and_eq_true] at hs; exact hs.1
  have hws : ¬ (isWsChar d = true) := by simp [isWsChar_false_of_digit hdd]
  have hnc : ',' ∉ d :: ds := by
    intro hm
    rw [List.all_eq_true] at hs
    exact ne_comma_of_digit (hs _ hm) rfl
  refine ⟨?_, ?_, by decide, by decide⟩
  · unfold jsParseFloat
    rw [hdata, hd]
    rw [show ((d :: ds ++ ',' :: t.data).dropWhile isWsChar : List Char)
        = d :: ds ++ ',' :: t.data from List.dropWhile_cons_of_neg hws]
    exact jsParseFloat_digits_comma_raw hs
  · have hclean := @jsParseFloat_digits_comma_clean d ds t.data hs ht
    rw [replaceFirstCommaAux_no_comma_append hnc] at hclean
    unfold jsParseFloat replaceFirstComma
    rw [hd]
    rw [show ((s ++ "," ++ t).data : List Char) = d :: ds ++ ',' :: t.data from hdata]
    rw [replaceFirstCommaAux_no_comma_append hnc]
    rw [show ((d :: ds ++ '.' :: t.data).dropWhile isWsChar : List Char)
        = d :: ds ++ '.' :: t.data from List.dropWhile_cons_of_neg hws]
    exact hclean

/-- Witness for C3's amended theorem at `"15" , "486755"`. -/
theorem comma_decimal_parse_paths_witness :
    jsParseFloat ("15" ++ "," ++ "486755") = some (natOfDigits "15".data)
    ∧ jsParseFloat (replaceFirstComma ("15" ++ "," ++ "486755"))
        = some ((natOfDigits "15".data : ℚ)
            + (natOfDigits "486755".data : ℚ) / (10 : ℚ) ^ "486755".data.length)
    ∧ extractCoordinates rowC3 = some ⟨some (15 : ℚ), some (73 : ℚ), "Door1/Door2"⟩
    ∧ extractCoordinates [("Foo", .str "15,486755"), ("Bar", .str "73,817429")]
        = some ⟨some (15.486755 : ℚ), some (73.817429 : ℚ), "Foo/Bar"⟩ :=
  comma_decimal_parse_paths "15" "486755" (by decide) (by decide) (by decide)

/-- The payload of the C7 counterexample: a truthy non-array value sits at
the conventional detected location, and no known location holds an array. -/
def jsonC7 : Json := Json.obj [("root", Json.obj [("VehicleData", Json.str "x")])]

/-- **C7 counterexample.** A payload in which no known vehicle-array location
holds an array, but the conventional location holds a truthy non-array
value: the detection selects it, iterating the selected value throws, and
the run fails — no snapshot is produced at all. -/
theorem truthy_nonarray_payload_fails_run :
    (jsonC7.getKey "root").bind (fun r => Json.getKey r "VehicleData")
        = some (Json.str "x")
    ∧ Json.isArray (Json.str "x") = false
    ∧ jsonC7.isArray = false
    ∧ jsonC7.getKey "data" = none
    ∧ extractRows jsonC7 = Json.str "x"
    ∧ fetchAndCachePipeline jsonC7 "T0" "20250101" none = none :=
  ⟨rfl, rfl, rfl, rfl, rfl, rfl⟩

/-- **C7 amended.** The non-fatal guarantee holds when every known
vehicle-array location is *falsy* (absent, `null`, empty, or zero) and the
payload is not itself an array: then the Normalizer yields zero records and
the run still produces a valid empty FeatureCollection snapshot with
metadata count 0.  (A truthy non-array value at a detected location instead
crashes the run — see the counterexample.) -/
theorem malformedPayload_yields_empty_snapshot (j : Json) (now today : String)
    (stored : Option (Option TracksGeoJson))
    (hroot : (jsonTruthy (some j) && jsonTruthy (j.getKey "root")
        && jsonTruthy ((j.getKey "root").bind (fun r => r.getKey "VehicleData"))) = false)
    (harr : j.isArray = false)
    (hdata : (jsonTruthy (some j) && jsonTruthy (j.getKey "data")) = false) :
    extractRows j = Json.arr []
    ∧ fetchAndCachePipeline j now today stored
        = some (snapshotOf [] now, updateDailyGpxTracks [] today now stored, [])
    ∧ (snapshotOf [] now).count = 0
    ∧ (snapshotOf [] now).features = []
    ∧ (snapshotOf [] now).ftype = "FeatureCollection" := by
  have he : extractRows j = Json.arr [] := by
    simp [extractRows, hroot, harr, hdata]
  refine ⟨he, ?_, rfl, rfl, rfl⟩
  unfold fetchAndCachePipeline
  rw [he]
  rfl

/-- Witness for C7 at a concrete structureless payload. -/
theorem malformedPayload_yields_empty_snapshot_witness :
    extractRows (Json.obj [("message", Json.str "no data")]) = Json.arr []
    ∧ fetchAndCachePipeline (Json.obj [("message", Json.str "no data")]) "T0" "20250101" none
        = some (snapshotOf [] "T0", updateDailyGpxTracks [] "20250101" "T0" none, [])
    ∧ (snapshotOf [] "T0").count = 0
    ∧ (snapshotOf [] "T0").features = []
    ∧ (snapshotOf [] "T0").ftype = "FeatureCollection" :=
  malformedPayload_yields_empty_snapshot (Json.obj [("message", Json.str "no data")])
    "T0" "20250101" none rfl rfl rfl

/-- **C10.** When the incoming record's point equals the last recorded point
of the vehicle's existing track feature, the accumulator leaves the whole
feature list unchanged: nothing is appended and the feature's `lastUpdated`
keeps its old value even though a new timestamp was supplied. -/
theorem duplicate_point_leaves_feature_unchanged
    (truck : Row) (today now : String) (stored : Option (Option TracksGeoJson))
    (vid : String) (i : ℕ) (f : TrackFeature) (lc : ℚ × ℚ)
    (hvid : vehicleIdOf truck = some vid)
    (hmap : mapGet (buildVehicleMap (loadTracks today stored).features) vid = some i)
    (hfeat : (loadTracks today stored).features.get? i = some f)
    (hlast : f.coordinates.getLast? = some lc)
    (hlng : parseFloatJS (Row.get truck "Longitude") = some lc.1)
    (hlat : parseFloatJS (Row.get truck "Latitude") = some lc.2) :
    (updateDailyGpxTracks [truck] today now stored).features
      = (loadTracks today stored).features := by
  unfold updateDailyGpxTracks
  simp only [List.foldl_cons, List.foldl_nil]
  unfold trackStep
  simp only [hvid, hlng, hlat, hmap, hfeat, hlast]
  rw [if_neg (by simp)]

/-- The stored daily track used by the C10 witness. -/
def storedC10 : TracksGeoJson :=
  ⟨"FeatureCollection", "20250101", "Directorate of Fire Emergency Services, Govt. of Goa",
    "Daily GPS tracks of fire trucks", none, none,
    [⟨"Feature", "LineString", [((739 : ℚ)/10, (31 : ℚ)/2)], "V1",
      .str "Truck", .str "HQ", .str "t0", .str "t0"⟩]⟩

/-- The incoming record of the C10 witness: same point, newer timestamp. -/
def truckC10 : Row :=
  [("Vehicle_No", .str "V1"), ("Datetime", .str "t1"),
    ("Latitude", .str "15.5"), ("Longitude", .str "73.9")]

/-- Witness for C10 at a concrete stationary vehicle. -/
theorem duplicate_point_leaves_feature_unchanged_witness :
    (updateDailyGpxTracks [truckC10] "20250101" "NOW" (some (some storedC10))).features
      = (loadTracks "20250101" (some (some storedC10))).features :=
  duplicate_point_leaves_feature_unchanged truckC10 "20250101" "NOW" (some (some storedC10))
    "V1" 0 ⟨"Feature", "LineString", [((739 : ℚ)/10, (31 : ℚ)/2)], "V1",
      .str "Truck", .str "HQ", .str "t0", .str "t0"⟩ ((739 : ℚ)/10, (31 : ℚ)/2)
    (by decide) (by decide) (by decide) (by decide) (by decide) (by decide)

theorem truthy_of_parseFloatRaw {v : Value} {q : ℚ} (h : v.parseFloatRaw = some q)
    (hq : q ≠ 0) : v.truthy = true := by
  cases v with
  | str s =>
    have hs : s ≠ "" := by
      rintro rfl
      exact Option.noConfusion (show (none : Option ℚ) = some q from h)
    simp [Value.truthy, hs]
  | num oq =>
    cases oq with
    | none => exact Option.noConfusion (show (none : Option ℚ) = some q from h)
    | some q' =>
      have he : q' = q := Option.some.inj h
      subst he
      simp [Value.truthy, hq]
  | bool b => exact Option.noConfusion (show (none : Option ℚ) = some q from h)
  | null => exact Option.noConfusion (show (none : Option ℚ) = some q from h)
  | objlike => exact Option.noConfusion (show (none : Option ℚ) = some q from h)

/-- The `(Latitude, Longitude)` window of the sliding-window scan fires with
the raw-parsed values when both are in range. -/
theorem pairCandidate_latlng (row : Row) {la lo : ℚ}
    (hla : parseFloatJS (Row.get row "Latitude") = some la)
    (hlo : parseFloatJS (Row.get row "Longitude") = some lo)
    (hla1 : 14.5 ≤ la) (hla2 : la ≤ 16.0) (hlo1 : 73.5 ≤ lo) (hlo2 : lo ≤ 74.5) :
    pairCandidate row "Latitude" "Longitude"
      = some ⟨some la, some lo, "Latitude/Longitude"⟩ := by
  have hqa : la ≠ 0 := by intro h0; rw [h0] at hla1; norm_num at hla1
  have hqo : lo ≠ 0 := by intro h0; rw [h0] at hlo1; norm_num at hlo1
  obtain ⟨vla, hvla⟩ : ∃ v, Row.get row "Latitude" = some v := by
    cases hv : Row.get row "Latitude" with
    | none =>
      rw [hv] at hla
      exact Option.noConfusion (show (none : Option ℚ) = some la from hla)
    | some v => exact ⟨v, rfl⟩
  obtain ⟨vlo, hvlo⟩ : ∃ v, Row.get row "Longitude" = some v := by
    cases hv : Row.get row "Longitude" with
    | none =>
      rw [hv] at hlo
      exact Option.noConfusion (show (none : Option ℚ) = some lo from hlo)
    | some v => exact ⟨v, rfl⟩
  rw [hvla] at hla
  rw [hvlo] at hlo
  simp only [parseFloatJS] at hla hlo
  have htla : vla.truthy = true := truthy_of_parseFloatRaw hla hqa
  have htlo : vlo.truthy = true := truthy_of_parseFloatRaw hlo hqo
  unfold pairCandidate
  rw [hvla, hvlo]
  simp only [truthyOpt, htla, htlo, Bool.not_true, Bool.or_self, Bool.false_eq_true,
    if_false, parseFloatJS, hla, hlo]
  have hvalid : isValidGoaCoordinate (some (.num (some la))) "lat" = true := by
    simp [isValidGoaCoordinate, Value.truthy, Value.cleanParse, inLatRange, hqa, hla1, hla2]
  have hvalid2 : isValidGoaCoordinate (some (.num (some lo))) "lng" = true := by
    simp [isValidGoaCoordinate, Value.truthy, Value.cleanParse, inLngRange, hqo, hlo1, hlo2]
  simp [hvalid, hvalid2]

/-- The record of the C6 counterexample: conventional fields in range, but a
known-misplacement pair also in range. -/
def rowC6 : Row :=
  [("Vehicle_No", .str "X"), ("Door1", .str "15.0"), ("Door2", .str "74.0"),
    ("Latitude", .str "15.5"), ("Longitude", .str "73.9")]

/-- **C6 counterexample.** A record with an in-range conventional
`Latitude`/`Longitude` pair is *not* always returned unchanged: strategy 1
fires first on the `Door1`/`Door2` pair, resolving to `(15, 74)` instead of
the record's `(15.5, 73.9)`. -/
theorem conventional_pair_not_always_returned :
    isValidGoaCoordinate (Row.get rowC6 "Latitude") "lat" = true
    ∧ isValidGoaCoordinate (Row.get rowC6 "Longitude") "lng" = true
    ∧ extractCoordinates rowC6 = some ⟨some (15 : ℚ), some (74 : ℚ), "Door1/Door2"⟩
    ∧ parseFloatJS (Row.get rowC6 "Latitude") = some (15.5 : ℚ)
    ∧ (15 : ℚ) ≠ 15.5 ∧ (74 : ℚ) ≠ 73.9 := by
  decide

/-- **C6 amended.** The idempotent primary path holds only when no earlier
strategy fires: if the known-vehicle overrides and known-pattern pairs fail
and no sliding-window pair before `(Latitude, Longitude)` matches, a record
whose `Latitude`/`Longitude` raw-parse to in-range numbers resolves to
exactly that pair. -/
theorem conventional_pair_primary_path (row : Row) {la lo : ℚ}
    (h0 : strategy0 row = none) (h1 : strategy1 row = none)
    (hw1 : pairCandidate row "Location" "POI" = none)
    (hw2 : pairCandidate row "POI" "Datetime" = none)
    (hw3 : pairCandidate row "Datetime" "Latitude" = none)
    (hla : parseFloatJS (Row.get row "Latitude") = some la)
    (hlo : parseFloatJS (Row.get row "Longitude") = some lo)
    (hla1 : 14.5 ≤ la) (hla2 : la ≤ 16.0) (hlo1 : 73.5 ≤ lo) (hlo2 : lo ≤ 74.5) :
    extractCoordinates row = some ⟨some la, some lo, "Latitude/Longitude"⟩ := by
  have hpc := pairCandidate_latlng row hla hlo hla1 hla2 hlo1 hlo2
  have hs2 : strategy2 row = some ⟨some la, some lo, "Latitude/Longitude"⟩ := by
    unfold strategy2 coordPairs
    rw [show windowPairs
        = [("Location", "POI"), ("POI", "Datetime"), ("Datetime", "Latitude"),
            ("Latitude", "Longitude"), ("Longitude", "Status"), ("Status", "Speed")]
      from rfl]
    simp [List.filterMap_cons, hw1, hw2, hw3, hpc]
  unfold extractCoordinates cascadeAfter0
  rw [h0, h1, hs2]

/-- Witness for C6's amended theorem: a record holding only the conventional
pair resolves to it unchanged. -/
theorem conventional_pair_primary_path_witness :
    extractCoordinates [("Latitude", Value.str "15.5"), ("Longitude", Value.str "73.9")]
      = some ⟨some (15.5 : ℚ), some (73.9 : ℚ), "Latitude/Longitude"⟩ :=
  conventional_pair_primary_path
    [("Latitude", Value.str "15.5"), ("Longitude", Value.str "73.9")]
    (by decide) (by decide) (by decide) (by decide) (by decide) (by decide) (by decide)
    (by decide) (by decide) (by decide) (by decide)

/-! ## Analysis of the global confidence scan (for C5) -/

/-- A row entry qualifying as a latitude candidate of the global scan:
truthy value whose normalizing parse lands in the latitude range. -/
def latCandidateOf (entry : String × Value) : Option (String × ℚ) :=
  if entry.2.truthy then
    match entry.2.cleanParse with
    | some n =>
      if isValidGoaCoordinate (some (.num (some n))) "lat" then some (entry.1, n) else none
    | none => none
  else none

/-- A row entry qualifying as a longitude candidate of the global scan. -/
def lngCandidateOf (entry : String × Value) : Option (String × ℚ) :=
  if entry.2.truthy then
    match entry.2.cleanParse with
    | some n =>
      if isValidGoaCoordinate (some (.num (some n))) "lng" then some (entry.1, n) else none
    | none => none
  else none

/-- All latitude candidates of a row, in iteration order. -/
def latCandidates (row : Row) : List (String × ℚ) := row.filterMap latCandidateOf

/-- All longitude candidates of a row, in iteration order. -/
def lngCandidates (row : Row) : List (String × ℚ) := row.filterMap lngCandidateOf

/-- Confidence of an optional current-best candidate (0 when none yet). -/
def confOf (conf : String → ℕ) : Option (String × ℚ) → ℕ
  | some p => conf p.1
  | none => 0

/-- Keep the strictly better candidate (ties keep the earlier one). -/
def pickStep (conf : String → ℕ) (best : Option (String × ℚ)) (p : String × ℚ) :
    Option (String × ℚ) :=
  if conf p.1 > confOf conf best then some p else best

/-- The first candidate attaining the maximal confidence of the list. -/
def pickFirstMax (conf : String → ℕ) (l : List (String × ℚ)) : Option (String × ℚ) :=
  l.foldl (pickStep conf) none

theorem latConfOf_ge (f : String) : 5 ≤ latConfOf f := by
  unfold latConfOf
  split
  · norm_num
  · split
    · norm_num
    · norm_num

theorem lngConfOf_ge (f : String) : 5 ≤ lngConfOf f := by
  unfold lngConfOf
  split
  · norm_num
  · split
    · norm_num
    · norm_num

/-- One best-so-far triple (value, confidence, source field) of the scan
state; used for both the latitude and the longitude side. -/
structure BestSide where
  best : Option ℚ
  conf : ℕ
  src : String
deriving DecidableEq, Repr

/-- The latitude components of a scan state. -/
def ScanState.latSide (st : ScanState) : BestSide :=
  ⟨st.bestLat, st.latConfidence, st.latField⟩

/-- The longitude components of a scan state. -/
def ScanState.lngSide (st : ScanState) : BestSide :=
  ⟨st.bestLng, st.lngConfidence, st.lngField⟩

/-- The transition of one side of the scan under one row entry. -/
def sideStep (conf : String → ℕ) (cand : String × Value → Option (String × ℚ))
    (acc : BestSide) (e : String × Value) : BestSide :=
  match cand e with
  | some p => if conf p.1 > acc.conf then ⟨some p.2, conf p.1, p.1⟩ else acc
  | none => acc

theorem scanStep_latSide (st : ScanState) (e : String × Value) :
    (scanStep st e).latSide = sideStep latConfOf latCandidateOf st.latSide e := by
  unfold scanStep sideStep latCandidateOf ScanState.latSide
  by_cases ht : e.2.truthy = true
  · cases hc : e.2.cleanParse with
    | none => simp [ht, hc]
    | some num =>
      by_cases hvl : isValidGoaCoordinate (some (.num (some num))) "lat" = true
      · by_cases hcmp : latConfOf e.1 > st.latConfidence
        · by_cases hvg : isValidGoaCoordinate (some (.num (some num))) "lng" = true
          · by_cases hcmp2 : lngConfOf e.1 > st.lngConfidence <;>
              simp [ht, hc, hvl, hcmp, hvg, hcmp2]
          · simp [ht, hc, hvl, hcmp, hvg]
        · by_cases hvg : isValidGoaCoordinate (some (.num (some num))) "lng" = true
          · by_cases hcmp2 : lngConfOf e.1 > st.lngConfidence <;>
              simp [ht, hc, hvl, hcmp, hvg, hcmp2]
          · simp [ht, hc, hvl, hcmp, hvg]
      · by_cases hvg : isValidGoaCoordinate (some (.num (some num))) "lng" = true
        · by_cases hcmp2 : lngConfOf e.1 > st.lngConfidence <;>
            simp [ht, hc, hvl, hvg, hcmp2]
        · simp [ht, hc, hvl, hvg]
  · simp [ht]

theorem scanStep_lngSide (st : ScanState) (e : String × Value) :
    (scanStep st e).lngSide = sideStep lngConfOf lngCandidateOf st.lngSide e := by
  unfold scanStep sideStep lngCandidateOf ScanState.lngSide
  by_cases ht : e.2.truthy = true
  · cases hc : e.2.cleanParse with
    | none => simp [ht, hc]
    | some num =>
      by_cases hvl : isValidGoaCoordinate (some (.num (some num))) "lat" = true
      · by_cases hcmp : latConfOf e.1 > st.latConfidence
        · by_cases hvg : isValidGoaCoordinate (some (.num (some num))) "lng" = true
          · by_cases hcmp2 : lngConfOf e.1 > st.lngConfidence <;>
              simp [ht, hc, hvl, hcmp, hvg, hcmp2]
          · simp [ht, hc, hvl, hcmp, hvg]
        · by_cases hvg : isValidGoaCoordinate (some (.num (some num))) "lng" = true
          · by_cases hcmp2 : lngConfOf e.1 > st.lngConfidence <;>
              simp [ht, hc, hvl, hcmp, hvg, hcmp2]
          · simp [ht, hc, hvl, hcmp, hvg]
      · by_cases hvg : isValidGoaCoordinate (some (.num (some num))) "lng" = true
        · by_cases hcmp2 : lngConfOf e.1 > st.lngConfidence <;>
            simp [ht, hc, hvl, hvg, hcmp2]
        · simp [ht, hc, hvl, hvg]
  · simp [ht]

theorem scanRow_latSide (row : Row) :
    (scanRow row).latSide = row.foldl (sideStep latConfOf latCandidateOf) initScan.latSide := by
  unfold scanRow
  exact (List.foldl_hom ScanState.latSide scanStep (sideStep latConfOf latCandidateOf) row
    initScan (fun st e => (scanStep_latSide st e).symm)).symm

theorem scanRow_lngSide (row : Row) :
    (scanRow row).lngSide = row.foldl (sideStep lngConfOf lngCandidateOf) initScan.lngSide := by
  unfold scanRow
  exact (List.foldl_hom ScanState.lngSide scanStep (sideStep lngConfOf lngCandidateOf) row
    initScan (fun st e => (scanStep_lngSide st e).symm)).symm

/-- Correspondence between a best-side triple and an optional best candidate. -/
def okSide (conf : String → ℕ) (ls : BestSide) (b : Option (String × ℚ)) : Prop :=
  ls.best = Option.map Prod.snd b ∧ ls.conf = confOf conf b ∧ ∀ p, b = some p → ls.src = p.1

/-- One step of the first-max pick lifted through the candidate filter. -/
def candStep (conf : String → ℕ) (cand : String × Value → Option (String × ℚ))
    (bb : Option (String × ℚ)) (e : String × Value) : Option (String × ℚ) :=
  match cand e with
  | some p => pickStep conf bb p
  | none => bb

theorem sideStep_ok {conf : String → ℕ} {cand : String × Value → Option (String × ℚ)}
    {ls : BestSide} {b : Option (String × ℚ)} (h : okSide conf ls b) (e : String × Value) :
    okSide conf (sideStep conf cand ls e) (candStep conf cand b e) := by
  obtain ⟨h1, h2, h3⟩ := h
  unfold candStep
  cases hc : cand e with
  | none =>
    have hss : sideStep conf cand ls e = ls := by unfold sideStep; rw [hc]
    rw [hss]
    exact ⟨h1, h2, h3⟩
  | some p =>
    by_cases hcmp : conf p.1 > ls.conf
    · have hcmp' : conf p.1 > confOf conf b := h2 ▸ hcmp
      have hps : pickStep conf b p = some p := by unfold pickStep; rw [if_pos hcmp']
      have hss : sideStep conf cand ls e = ⟨some p.2, conf p.1, p.1⟩ := by
        unfold sideStep; rw [hc]; simp [hcmp]
      rw [hss]
      show okSide conf _ (pickStep conf b p)
      rw [hps]
      exact ⟨rfl, rfl, fun q hq => by rw [Option.some.inj hq]⟩
    · have hcmp' : ¬ conf p.1 > confOf conf b := h2 ▸ hcmp
      have hps : pickStep conf b p = b := by unfold pickStep; rw [if_neg hcmp']
      have hss : sideStep conf cand ls e = ls := by
        unfold sideStep; rw [hc]; simp [hcmp]
      rw [hss]
      show okSide conf _ (pickStep conf b p)
      rw [hps]
      exact ⟨h1, h2, h3⟩

theorem foldl_sideStep_ok {conf : String → ℕ} {cand : String × Value → Option (String × ℚ)} :
    ∀ (l : List (String × Value)) {ls : BestSide} {b : Option (String × ℚ)},
      okSide conf ls b →
      okSide conf (l.foldl (sideStep conf cand) ls) (l.foldl (candStep conf cand) b) := by
  intro l
  induction l with
  | nil => intro ls b h; exact h
  | cons e l ih =>
    intro ls b h
    simpa [List.foldl_cons] using ih (sideStep_ok h e)

theorem pickFirstMax_filterMap (conf : String → ℕ)
    (cand : String × Value → Option (String × ℚ)) :
    ∀ (l : List (String × Value)) (b : Option (String × ℚ)),
      (l.filterMap cand).foldl (pickStep conf) b = l.foldl (candStep conf cand) b := by
  intro l
  induction l with
  | nil => intro b; rfl
  | cons e l ih =>
    intro b
    cases hc : cand e <;> simp [List.filterMap_cons, hc, ih, candStep]

theorem pickFirstMax_concat (conf : String → ℕ) (l : List (String × ℚ)) (p : String × ℚ) :
    pickFirstMax conf (l ++ [p]) = pickStep conf (pickFirstMax conf l) p := by
  unfold pickFirstMax
  rw [List.foldl_append]
  rfl

/-- Specification of `pickFirstMax`: when it returns a candidate, that
candidate is in the list, its confidence is maximal, and it is the first
element attaining at least its confidence. -/
theorem pickFirstMax_spec (conf : String → ℕ) (hge : ∀ f, 5 ≤ conf f)
    (l : List (String × ℚ)) :
    (pickFirstMax conf l = none → l = [])
    ∧ ∀ p, pickFirstMax conf l = some p →
        p ∈ l ∧ (∀ q ∈ l, conf q.1 ≤ conf p.1)
        ∧ l.find? (fun q => conf p.1 ≤ conf q.1) = some p := by
  induction l using List.reverseRecOn with
  | nil =>
    refine ⟨fun _ => rfl, fun p hp => ?_⟩
    exact absurd hp (by simp [pickFirstMax])
  | append_singleton l p ih =>
    obtain ⟨ihn, ihs⟩ := ih
    rw [pickFirstMax_concat]
    cases hr : pickFirstMax conf l with
    | none =>
      have hl : l = [] := ihn hr
      subst hl
      have h5 : 5 ≤ conf p.1 := hge p.1
      constructor
      · intro hnone
        rw [show pickStep conf none p = some p by
          simp [pickStep, confOf]; omega] at hnone
        exact Option.noConfusion hnone
      · intro q hq
        rw [show pickStep conf none p = some p by
          simp [pickStep, confOf]; omega] at hq
        obtain rfl : p = q := Option.some.inj hq
        refine ⟨by simp, by simp, ?_⟩
        simp [List.find?]
    | some ch =>
      obtain ⟨hmem, hmax, hfind⟩ := ihs ch hr
      by_cases hgt : conf p.1 > conf ch.1
      · have hps : pickStep conf (some ch) p = some p := by simp [pickStep, confOf, hgt]
        rw [hps]
        constructor
        · intro hnone; exact Option.noConfusion hnone
        · intro q hq
          obtain rfl : p = q := Option.some.inj hq
          refine ⟨by simp, ?_, ?_⟩
          · intro r hr'
            rcases List.mem_append.mp hr' with h | h
            · exact le_trans (hmax r h) (le_of_lt hgt)
            · simp at h; subst h; exact le_refl _
          · rw [List.find?_append]
            have hlnone : l.find? (fun q => conf p.1 ≤ conf q.1) = none := by
              rw [List.find?_eq_none]
              intro x hx
              simp only [decide_eq_true_eq]
              intro hle
              exact absurd (le_trans hle (hmax x hx)) (not_le.mpr hgt)
            rw [hlnone]
            simp [List.find?]
      · have hps : pickStep conf (some ch) p = some ch := by simp [pickStep, confOf, hgt]
        rw [hps]
        constructor
        · intro hnone; exact Option.noConfusion hnone
        · intro q hq
          obtain rfl : ch = q := Option.some.inj hq
          refine ⟨List.mem_append_left _ hmem, ?_, ?_⟩
          · intro r hr'
            rcases List.mem_append.mp hr' with h | h
            · exact hmax r h
            · simp at h; subst h; exact le_of_not_lt hgt
          · rw [List.find?_append, hfind]
            rfl

/-- The latitude side of the full scan equals the first-max pick over the
latitude candidates. -/
theorem scanRow_lat_ok (row : Row) :
    okSide latConfOf (scanRow row).latSide (pickFirstMax latConfOf (latCandidates row)) := by
  have h0 : okSide latConfOf initScan.latSide none :=
    ⟨rfl, rfl, fun p h => Option.noConfusion h⟩
  have hmain := @foldl_sideStep_ok latConfOf latCandidateOf row _ _ h0
  rw [scanRow_latSide]
  unfold latCandidates pickFirstMax
  rw [pickFirstMax_filterMap]
  exact hmain

/-- The longitude side of the full scan equals the first-max pick over the
longitude candidates. -/
theorem scanRow_lng_ok (row : Row) :
    okSide lngConfOf (scanRow row).lngSide (pickFirstMax lngConfOf (lngCandidates row)) := by
  have h0 : okSide lngConfOf initScan.lngSide none :=
    ⟨rfl, rfl, fun p h => Option.noConfusion h⟩
  have hmain := @foldl_sideStep_ok lngConfOf lngCandidateOf row _ _ h0
  rw [scanRow_lngSide]
  unfold lngCandidates pickFirstMax
  rw [pickFirstMax_filterMap]
  exact hmain

/-- **C5.** When all earlier cascade strategies fail and the global
confidence scan succeeds, the Resolver returns the scan's result, and the
chosen latitude source field is the first latitude candidate attaining the
maximal latitude confidence score (10 for a field name containing `lat`, 8
for the known misplacement fields, 5 otherwise) — ties broken by iteration
order — and independently likewise for the longitude source field. -/
theorem global_scan_picks_highest_confidence (row : Row) (c : Coords)
    (h0 : strategy0 row = none) (h1 : strategy1 row = none) (h2 : strategy2 row = none)
    (h3 : strategy3 row = some c) :
    extractCoordinates row = some c
    ∧ ∃ latF latQ lngF lngQ,
        c = ⟨some latQ, some lngQ, latF ++ "/" ++ lngF⟩
        ∧ (latF, latQ) ∈ latCandidates row
        ∧ (∀ p ∈ latCandidates row, latConfOf p.1 ≤ latConfOf latF)
        ∧ (latCandidates row).find? (fun p => latConfOf latF ≤ latConfOf p.1)
            = some (latF, latQ)
        ∧ (lngF, lngQ) ∈ lngCandidates row
        ∧ (∀ p ∈ lngCandidates row, lngConfOf p.1 ≤ lngConfOf lngF)
        ∧ (lngCandidates row).find? (fun p => lngConfOf lngF ≤ lngConfOf p.1)
            = some (lngF, lngQ) := by
  constructor
  · unfold extractCoordinates cascadeAfter0
    rw [h0, h1, h2, h3]
  · obtain ⟨hok1, hok2, hok3⟩ := scanRow_lat_ok row
    obtain ⟨gok1, gok2, gok3⟩ := scanRow_lng_ok row
    have e1 : (scanRow row).bestLat
        = Option.map Prod.snd (pickFirstMax latConfOf (latCandidates row)) := hok1
    have e3 : ∀ p, pickFirstMax latConfOf (latCandidates row) = some p →
        (scanRow row).latField = p.1 := hok3
    have f1 : (scanRow row).bestLng
        = Option.map Prod.snd (pickFirstMax lngConfOf (lngCandidates row)) := gok1
    have f3 : ∀ p, pickFirstMax lngConfOf (lngCandidates row) = some p →
        (scanRow row).lngField = p.1 := gok3
    simp only [strategy3] at h3
    cases hpl : pickFirstMax latConfOf (latCandidates row) with
    | none =>
      rw [hpl] at e1
      simp only [Option.map_none'] at e1
      rw [e1] at h3
      simp at h3
    | some pl =>
      rw [hpl] at e1
      simp only [Option.map_some'] at e1
      have hlf : (scanRow row).latField = pl.1 := e3 pl hpl
      cases hpg : pickFirstMax lngConfOf (lngCandidates row) with
      | none =>
        rw [hpg] at f1
        simp only [Option.map_none'] at f1
        rw [e1, f1] at h3
        simp at h3
      | some pg =>
        rw [hpg] at f1
        simp only [Option.map_some'] at f1
        have hgf : (scanRow row).lngField = pg.1 := f3 pg hpg
        rw [e1, f1] at h3
        have hc2 : (⟨some pl.2, some pg.2,
            (scanRow row).latField ++ "/" ++ (scanRow row).lngField⟩ : Coords) = c :=
          Option.some.inj h3
        obtain ⟨hm, hx, hf⟩ :=
          (pickFirstMax_spec latConfOf latConfOf_ge (latCandidates row)).2 pl hpl
        obtain ⟨gm, gx, gf⟩ :=
          (pickFirstMax_spec lngConfOf lngConfOf_ge (lngCandidates row)).2 pg hpg
        refine ⟨pl.1, pl.2, pg.1, pg.2, ?_, ?_, ?_, ?_, ?_, ?_, ?_⟩
        · rw [← hc2, hlf, hgf]
        · simpa using hm
        · exact hx
        · simpa using hf
        · simpa using gm
        · exact gx
        · simpa using gf

/-- The record of the C5 witness: coordinates only in unrelated fields. -/
def rowC5 : Row := [("Foo", .str "15.6"), ("Bar", .str "74.2")]

/-- Witness for C5 at a record resolvable only by the global scan. -/
theorem global_scan_picks_highest_confidence_witness :
    extractCoordinates rowC5 = some ⟨some (15.6 : ℚ), some (74.2 : ℚ), "Foo/Bar"⟩
    ∧ ∃ latF latQ lngF lngQ,
        (⟨some (15.6 : ℚ), some (74.2 : ℚ), "Foo/Bar"⟩ : Coords)
            = ⟨some latQ, some lngQ, latF ++ "/" ++ lngF⟩
        ∧ (latF, latQ) ∈ latCandidates rowC5
        ∧ (∀ p ∈ latCandidates rowC5, latConfOf p.1 ≤ latConfOf latF)
        ∧ (latCandidates rowC5).find? (fun p => latConfOf latF ≤ latConfOf p.1)
            = some (latF, latQ)
        ∧ (lngF, lngQ) ∈ lngCandidates rowC5
        ∧ (∀ p ∈ lngCandidates rowC5, lngConfOf p.1 ≤ lngConfOf lngF)
        ∧ (lngCandidates rowC5).find? (fun p => lngConfOf lngF ≤ lngConfOf p.1)
            = some (lngF, lngQ) :=
  global_scan_picks_highest_confidence rowC5
    ⟨some (15.6 : ℚ), some (74.2 : ℚ), "Foo/Bar"⟩
    (by decide) (by decide) (by decide) (by decide)

/-- One accumulator step keeps every feature's coordinate list free of
adjacent duplicates. -/
theorem trackStep_preserves_chain (now : String) (st : TracksGeoJson × List (String × ℕ))
    (truck : Row)
    (h : ∀ f ∈ st.1.features, List.Chain' (fun a b => a ≠ b) f.coordinates) :
    ∀ f ∈ (trackStep now st truck).1.features,
      List.Chain' (fun a b => a ≠ b) f.coordinates := by
  unfold trackStep
  split
  · exact h
  · split
    · split
      · split
        · split
          · -- existing feature with empty coordinate list: seed with one point
            rename_i lngNum latNum heqLng heqLat xm featureIndex heqMap xg feature heqGet
              xlast heqLast
            intro f hf
            rcases List.mem_or_eq_of_mem_set hf with hf' | rfl
            · exact h f hf'
            · have hnil : feature.coordinates = [] := List.getLast?_eq_none_iff.mp heqLast
              show List.Chain' (fun a b => a ≠ b)
                (appendPoint feature lngNum latNum (timestampOf truck now)).coordinates
              simp [appendPoint, hnil]
          · -- existing feature with a last point
            rename_i lngNum latNum heqLng heqLat xm featureIndex heqMap xg feature heqGet
              xlast lastCoord heqLast
            split
            · rename_i hne
              intro f hf
              rcases List.mem_or_eq_of_mem_set hf with hf' | rfl
              · exact h f hf'
              · have hchain := h feature (List.get?_mem heqGet)
                show List.Chain' (fun a b => a ≠ b)
                  (feature.coordinates ++ [(lngNum, latNum)])
                refine List.chain'_append.mpr ⟨hchain, List.chain'_singleton _, ?_⟩
                intro x hx y hy
                rw [heqLast] at hx
                have hx' : lastCoord = x := by simpa using hx
                have hy' : (lngNum, latNum) = y := by simpa using hy
                rw [← hx', ← hy']
                intro he
                rcases hne with hne | hne
                · exact hne (congrArg Prod.fst he)
                · exact hne (congrArg Prod.snd he)
            · exact h
        · exact h
      · -- unseen vehicle: append a fresh single-point feature
        rename_i vid heq5 x4 x3 lngNum latNum heqLng heqLat xm hmapnone
        intro f hf
        rcases List.mem_append.mp hf with hf' | hf'
        · exact h f hf'
        · have hfe := List.mem_singleton.mp hf'
          subst hfe
          exact List.chain'_singleton _
    · exact h

/-- **C4.** The Track Accumulator never appends a point equal to the
immediately preceding point of a vehicle's LineString: if every stored
feature's coordinate list has no adjacent duplicates, the same holds after
an arbitrary run of the accumulator. -/
theorem track_never_appends_duplicate_point
    (trucks : List Row) (today now : String) (stored : Option (Option TracksGeoJson))
    (hadj : ∀ f ∈ (loadTracks today stored).features,
        List.Chain' (fun a b => a ≠ b) f.coordinates) :
    ∀ f ∈ (updateDailyGpxTracks trucks today now stored).features,
      List.Chain' (fun a b => a ≠ b) f.coordinates := by
  have main : ∀ (ts : List Row) (st : TracksGeoJson × List (String × ℕ)),
      (∀ f ∈ st.1.features, List.Chain' (fun a b => a ≠ b) f.coordinates) →
      ∀ f ∈ (ts.foldl (trackStep now) st).1.features,
        List.Chain' (fun a b => a ≠ b) f.coordinates := by
    intro ts
    induction ts with
    | nil => intro st hst; simpa using hst
    | cons t ts ih =>
      intro st hst
      rw [List.foldl_cons]
      exact ih _ (trackStep_preserves_chain now st t hst)
  intro f hf
  exact main trucks (loadTracks today stored,
    buildVehicleMap (loadTracks today stored).features) hadj f hf

/-- The single record fed to both runs of the C4 witness. -/
def truckC4 : Row :=
  [("Vehicle_No", .str "V1"), ("Datetime", .str "d1"),
    ("Latitude", .str "15.5"), ("Longitude", .str "73.9")]

/-- The state after the first run of the C4 witness scenario. -/
def runC4 : TracksGeoJson := updateDailyGpxTracks [truckC4] "20250101" "T1" none

/-- Witness for C4: two consecutive runs supplying the same single point for
vehicle `V1` leave its track LineString with exactly one coordinate. -/
theorem track_never_appends_duplicate_point_witness :
    (∀ f ∈ (loadTracks "20250101" (some (some runC4))).features,
        List.Chain' (fun a b => a ≠ b) f.coordinates)
    ∧ (∀ f ∈ (updateDailyGpxTracks [truckC4] "20250101" "T2" (some (some runC4))).features,
        List.Chain' (fun a b => a ≠ b) f.coordinates)
    ∧ (updateDailyGpxTracks [truckC4] "20250101" "T2" (some (some runC4))).features.map
        TrackFeature.coordinates = [[((739 : ℚ)/10, (31 : ℚ)/2)]] := by
  have hA : ∀ f ∈ (loadTracks "20250101" (some (some runC4))).features,
      List.Chain' (fun a b => a ≠ b) f.coordinates := by
    intro f hf
    have hfe : f = ⟨"Feature", "LineString", [((739 : ℚ)/10, (31 : ℚ)/2)], "V1",
        Value.str "", Value.str "", Value.str "d1", Value.str "d1"⟩ :=
      List.mem_singleton.mp hf
    subst hfe
    exact List.chain'_singleton _
  exact ⟨hA,
    track_never_appends_duplicate_point [truckC4] "20250101" "T2" (some (some runC4)) hA,
    by decide⟩

theorem coerceField_get_truthy {row : Row} {key : String} {v : Value}
    (h : Row.get row key = some v) (ht : v.truthy = true) :
    (coerceField row key).get key = some (.num v.parseFloatRaw) := by
  unfold coerceField
  rw [h]
  simp [ht, Row.get_set_self]

theorem coerceField_get_nontruthy {row : Row} {key : String} {v : Value}
    (h : Row.get row key = some v) (ht : v.truthy = false) :
    (coerceField row key).get key = some v := by
  unfold coerceField
  rw [h]
  simp [ht, h]

theorem coerceField_get_none {row : Row} {key : String} (h : Row.get row key = none) :
    (coerceField row key).get key = none := by
  unfold coerceField
  rw [h]
  exact h

theorem coerceField_get_ne (row : Row) {key key2 : String} (hne : key2 ≠ key) :
    (coerceField row key).get key2 = Row.get row key2 := by
  unfold coerceField
  cases h : Row.get row key with
  | none => rfl
  | some v =>
    by_cases ht : v.truthy
    · simp [ht, Row.get_set_ne _ _ hne]
    · simp [ht]

theorem isValid_num_lat {oq : Option ℚ}
    (h : isValidGoaCoordinate (some (.num oq)) "lat" = true) :
    ∃ q, oq = some q ∧ inLatRange q = true := by
  cases oq with
  | none => simp [isValidGoaCoordinate, Value.truthy] at h
  | some q =>
    refine ⟨q, rfl, ?_⟩
    by_cases hq : q = 0
    · subst hq; simp [isValidGoaCoordinate, Value.truthy] at h
    · simpa [isValidGoaCoordinate, Value.truthy, Value.cleanParse, hq] using h

theorem isValid_num_lng {oq : Option ℚ}
    (h : isValidGoaCoordinate (some (.num oq)) "lng" = true) :
    ∃ q, oq = some q ∧ inLngRange q = true := by
  cases oq with
  | none => simp [isValidGoaCoordinate, Value.truthy] at h
  | some q =>
    refine ⟨q, rfl, ?_⟩
    by_cases hq : q = 0
    · subst hq; simp [isValidGoaCoordinate, Value.truthy] at h
    · simpa [isValidGoaCoordinate, Value.truthy, Value.cleanParse, hq] using h

theorem coerced_valid (row : Row) (key ty : String)
    (h : isValidGoaCoordinate ((coerceField row key).get key) ty = true) :
    ∃ oq, (coerceField row key).get key = some (.num oq)
        ∧ isValidGoaCoordinate (some (.num oq)) ty = true := by
  cases hr : Row.get row key with
  | none =>
    rw [coerceField_get_none hr] at h
    simp [isValidGoaCoordinate] at h
  | some v =>
    cases htv : v.truthy with
    | false =>
      rw [coerceField_get_nontruthy hr htv] at h
      rw [show isValidGoaCoordinate (some v) ty = false by
        simp [isValidGoaCoordinate, htv]] at h
      exact absurd h (by simp)
    | true =>
      rw [coerceField_get_truthy hr htv] at h
      exact ⟨v.parseFloatRaw, coerceField_get_truthy hr htv, h⟩

/-- Every row surviving the coercion-then-filter pipeline carries numeric,
in-range `Latitude`/`Longitude` values. -/
theorem valid_processed_fields (r : Row) (h2 : validCheck (processRow2 r) = true) :
    ∃ la lo, Row.get (processRow2 r) "Latitude" = some (.num (some la))
      ∧ inLatRange la = true
      ∧ Row.get (processRow2 r) "Longitude" = some (.num (some lo))
      ∧ inLngRange lo = true := by
  unfold validCheck at h2
  rw [Bool.and_eq_true] at h2
  obtain ⟨hv1, hv2⟩ := h2
  have hg1 : Row.get (processRow2 r) "Latitude"
      = (coerceField r "Latitude").get "Latitude" :=
    coerceField_get_ne (coerceField r "Latitude") (by decide)
  rw [hg1] at hv1
  obtain ⟨oq, hoq, hval⟩ := coerced_valid r "Latitude" "lat" hv1
  obtain ⟨la, hla, hrange⟩ := isValid_num_lat hval
  have hv2' : isValidGoaCoordinate
      ((coerceField (coerceField r "Latitude") "Longitude").get "Longitude") "lng" = true := hv2
  obtain ⟨oq2, hoq2, hval2⟩ := coerced_valid (coerceField r "Latitude") "Longitude" "lng" hv2'
  obtain ⟨lo, hlo, hrange2⟩ := isValid_num_lng hval2
  refine ⟨la, lo, ?_, hrange, ?_, hrange2⟩
  · rw [hg1, hoq, hla]
  · show (coerceField (coerceField r "Latitude") "Longitude").get "Longitude" = _
    rw [hoq2, hlo]

/-- One accumulator step only adds points whose parsed coordinates satisfy
the given range facts: every coordinate of the result is either a stored
coordinate (`base`) or inside the bounding box. -/
theorem trackStep_coords (now : String) (base : List (ℚ × ℚ))
    (st : TracksGeoJson × List (String × ℕ)) (truck : Row)
    (htr : ∀ lngNum latNum, parseFloatJS (Row.get truck "Longitude") = some lngNum →
        parseFloatJS (Row.get truck "Latitude") = some latNum →
        inLngRange lngNum = true ∧ inLatRange latNum = true)
    (h : ∀ g ∈ st.1.features, ∀ c ∈ g.coordinates,
        c ∈ base ∨ (inLngRange c.1 = true ∧ inLatRange c.2 = true)) :
    ∀ g ∈ (trackStep now st truck).1.features, ∀ c ∈ g.coordinates,
      c ∈ base ∨ (inLngRange c.1 = true ∧ inLatRange c.2 = true) := by
  unfold trackStep
  split
  · exact h
  · split
    · split
      · split
        · split
          · rename_i lngNum latNum heqLng heqLat xm featureIndex heqMap xg feature heqGet
              xlast heqLast
            intro g hg c hc
            rcases List.mem_or_eq_of_mem_set hg with hg' | rfl
            · exact h g hg' c hc
            · have hc2 : c ∈ feature.coordinates ++ [(lngNum, latNum)] := hc
              rcases List.mem_append.mp hc2 with hc' | hc'
              · exact h feature (List.get?_mem heqGet) c hc'
              · have hce := List.mem_singleton.mp hc'
                subst hce
                exact Or.inr (htr lngNum latNum heqLng heqLat)
          · rename_i lngNum latNum heqLng heqLat xm featureIndex heqMap xg feature heqGet
              xlast lastCoord heqLast
            split
            · rename_i hne
              intro g hg c hc
              rcases List.mem_or_eq_of_mem_set hg with hg' | rfl
              · exact h g hg' c hc
              · have hc2 : c ∈ feature.coordinates ++ [(lngNum, latNum)] := hc
                rcases List.mem_append.mp hc2 with hc' | hc'
                · exact h feature (List.get?_mem heqGet) c hc'
                · have hce := List.mem_singleton.mp hc'
                  subst hce
                  exact Or.inr (htr lngNum latNum heqLng heqLat)
            · exact h
        · exact h
      · rename_i vid heq5 x4 x3 lngNum latNum heqLng heqLat xm hmapnone
        intro g hg c hc
        rcases List.mem_append.mp hg with hg' | hg'
        · exact h g hg' c hc
        · have hge := List.mem_singleton.mp hg'
          subst hge
          have hce : c = (lngNum, latNum) := List.mem_singleton.mp hc
          subst hce
          exact Or.inr (htr lngNum latNum heqLng heqLat)
    · exact h

/-- **C2 amended.** In the main pipeline, every snapshot feature's coordinate
pair has passed the bounding-box check, and every coordinate of the updated
daily tracks is either a coordinate already present in the loaded stored
track or inside the bounding box. -/
theorem box_check_invariant
    (rows : List Row) (now today : String) (stored : Option (Option TracksGeoJson))
    (f : PointFeature) (hf : f ∈ (snapshotOf (validRowsOf rows) now).features)
    (g : TrackFeature)
    (hg : g ∈ (updateDailyGpxTracks (validRowsOf rows) today now stored).features)
    (c : ℚ × ℚ) (hc : c ∈ g.coordinates) :
    (isValidGoaCoordinate f.latCoord "lat" = true
      ∧ isValidGoaCoordinate f.lngCoord "lng" = true)
    ∧ (c ∈ (loadTracks today stored).features.flatMap TrackFeature.coordinates
        ∨ (inLngRange c.1 = true ∧ inLatRange c.2 = true)) := by
  constructor
  · have hf2 : f ∈ (validRowsOf rows).map featureOfRow := hf
    obtain ⟨t, ht, rfl⟩ := List.mem_map.mp hf2
    have htv : validCheck t = true := (List.mem_filter.mp ht).2
    unfold validCheck at htv
    rw [Bool.and_eq_true] at htv
    exact ⟨htv.1, htv.2⟩
  · have htrucks : ∀ t ∈ validRowsOf rows, ∀ lngNum latNum,
        parseFloatJS (Row.get t "Longitude") = some lngNum →
        parseFloatJS (Row.get t "Latitude") = some latNum →
        inLngRange lngNum = true ∧ inLatRange latNum = true := by
      intro t ht lngNum latNum hlng hlat
      obtain ⟨ht1, ht2⟩ := List.mem_filter.mp ht
      obtain ⟨r, hr, rfl⟩ := List.mem_map.mp ht1
      obtain ⟨la, lo, hla, hrla, hlo, hrlo⟩ := valid_processed_fields r ht2
      rw [hla] at hlat
      rw [hlo] at hlng
      have hla2 : la = latNum := Option.some.inj hlat
      have hlo2 : lo = lngNum := Option.some.inj hlng
      subst hla2
      subst hlo2
      exact ⟨hrlo, hrla⟩
    have main : ∀ (ts : List Row), (∀ t ∈ ts, ∀ lngNum latNum,
          parseFloatJS (Row.get t "Longitude") = some lngNum →
          parseFloatJS (Row.get t "Latitude") = some latNum →
          inLngRange lngNum = true ∧ inLatRange latNum = true) →
        ∀ (st : TracksGeoJson × List (String × ℕ)),
        (∀ g' ∈ st.1.features, ∀ c' ∈ g'.coordinates,
            c' ∈ (loadTracks today stored).features.flatMap TrackFeature.coordinates
            ∨ (inLngRange c'.1 = true ∧ inLatRange c'.2 = true)) →
        ∀ g' ∈ (ts.foldl (trackStep now) st).1.features, ∀ c' ∈ g'.coordinates,
            c' ∈ (loadTracks today stored).features.flatMap TrackFeature.coordinates
            ∨ (inLngRange c'.1 = true ∧ inLatRange c'.2 = true) := by
      intro ts
      induction ts with
      | nil => intro _ st hst; simpa using hst
      | cons t ts ih =>
        intro hts st hst
        rw [List.foldl_cons]
        exact ih (fun t' ht' => hts t' (List.mem_cons_of_mem _ ht'))
          _ (trackStep_coords now _ st t (hts t (List.mem_cons_self _ _)) hst)
    exact main (validRowsOf rows) htrucks
      (loadTracks today stored, buildVehicleMap (loadTracks today stored).features)
      (fun g' hg' c' hc' => Or.inl (List.mem_flatMap.mpr ⟨g', hg', hc'⟩)) g hg c hc

/-- The JSON payload of the C2 counterexample: one record with finite but
out-of-box coordinates. -/
def jsonC2 : Json :=
  Json.obj [("root", Json.obj [("VehicleData", Json.arr
    [Json.obj [("Vehicle_No", Json.str "GA 01 X 0001"), ("Latitude", Json.str "20.0"),
      ("Longitude", Json.str "80.0"), ("Datetime", Json.str "01-01-2025 00:00:00")]])])]

/-- **C2 counterexample.** The record with coordinates `(20, 80)` fails the
bounding-box check, is filtered out of the snapshot — yet the track-creation
stage, fed the exported unfiltered `parsedFireTrucks`, persists the pair
`[80, 20]` into the daily track file. -/
theorem out_of_box_point_persisted_to_track :
    (createDailyTracksUsing jsonC2 "T0" "20250101" none).map
        (fun t => t.features.map TrackFeature.coordinates) = some [[((80 : ℚ), (20 : ℚ))]]
    ∧ inLatRange 20 = false ∧ inLngRange 80 = false := by
  decide

/-- The in-range record of the C2 witness. -/
def rowC2w : Row :=
  [("Vehicle_No", .str "V1"), ("Latitude", .str "15.5"), ("Longitude", .str "73.9")]

/-- Witness for C2's amended theorem at a concrete one-record run. -/
theorem box_check_invariant_witness :
    (isValidGoaCoordinate (⟨"Feature", "Point", some (.num (some ((739 : ℚ)/10))),
          some (.num (some ((31 : ℚ)/2))), [("Vehicle_No", Value.str "V1")]⟩ :
        PointFeature).latCoord "lat" = true
      ∧ isValidGoaCoordinate (⟨"Feature", "Point", some (.num (some ((739 : ℚ)/10))),
          some (.num (some ((31 : ℚ)/2))), [("Vehicle_No", Value.str "V1")]⟩ :
        PointFeature).lngCoord "lng" = true)
    ∧ (((739 : ℚ)/10, (31 : ℚ)/2)
          ∈ (loadTracks "20250101" none).features.flatMap TrackFeature.coordinates
        ∨ (inLngRange ((739 : ℚ)/10, (31 : ℚ)/2).1 = true
            ∧ inLatRange ((739 : ℚ)/10, (31 : ℚ)/2).2 = true)) :=
  box_check_invariant [rowC2w] "T0" "20250101" none
    ⟨"Feature", "Point", some (.num (some ((739 : ℚ)/10))), some (.num (some ((31 : ℚ)/2))),
      [("Vehicle_No", Value.str "V1")]⟩ (by decide)
    ⟨"Feature", "LineString", [((739 : ℚ)/10, (31 : ℚ)/2)], "V1",
      Value.str "", Value.str "", Value.str "T0", Value.str "T0"⟩ (by decide)
    ((739 : ℚ)/10, (31 : ℚ)/2) (by decide)

end GoaFireTrucks
